import Mathlib

/-!
Verification of the CI/CD failure-detection and auto-repair engine
(`cicd/detectors/failure_detector.py`).

The Python module works on values produced by `yaml.safe_load` (PyYAML).
We embed those values as the inductive type `Yaml` below.  PyYAML follows
the YAML 1.1 resolver, so plain scalars such as `on`, `true`, `yes` are
parsed as booleans — in particular a mapping key can be the boolean
`true`; keys are therefore modelled by `YKey` (string or boolean keys,
which are the key shapes appearing in CI pipeline files).  Other scalar
key types (int, null, float) and float scalars are outside the model;
no pipeline in the claims uses them.  `yaml.safe_load` itself is the
library boundary: the detectors and fixers are modelled on the loaded
value, with parse failure represented by `Option.none`, and `yaml.dump`
round-trips the in-memory document, so a property of "the dumped text,
re-parsed" is stated as a property of the in-memory document.

Python-level semantics that the source relies on are modelled explicitly:
truthiness (`if not pipeline`), the `in` operator (key membership for
dicts, element equality for lists, substring for strings, `TypeError`
otherwise), subscription, `.items()` / `.keys()` / `.get()`, `enumerate`,
`len`, set construction (raising on unhashable elements), and the
`str()` / `repr()` textual representation that the regex scans run over.
Exceptions are modelled by `Except String`; the carried message strings
follow the CPython wording but are informative only.
-/

set_option maxRecDepth 8000

/-- Mapping keys of a loaded YAML document: PyYAML produces string keys and
(for YAML 1.1 scalars such as `on`, `yes`, `true`) boolean keys. -/
inductive YKey where
  | ks (s : String)
  | kb (b : Bool)
deriving DecidableEq, Repr

/-- A value produced by `yaml.safe_load`: null, booleans, integers, strings,
sequences and (ordered) mappings. -/
inductive Yaml where
  | null
  | bool (b : Bool)
  | int (n : Int)
  | str (s : String)
  | seq (xs : List Yaml)
  | map (kvs : List (YKey × Yaml))
deriving Repr

/-- Python truthiness of a loaded value (`if not pipeline`). -/
def truthy : Yaml → Bool
  | .null => false
  | .bool b => b
  | .int n => n != 0
  | .str s => s != ""
  | .seq xs => !xs.isEmpty
  | .map kvs => !kvs.isEmpty

/-- Truthiness of a mapping key used as a Python value (`if job_name:`). -/
def keyTruthy : YKey → Bool
  | .ks s => s != ""
  | .kb b => b

/-- The Python type name of a value, used in exception messages. -/
def typeName : Yaml → String
  | .null => "NoneType"
  | .bool _ => "bool"
  | .int _ => "int"
  | .str _ => "str"
  | .seq _ => "list"
  | .map _ => "dict"

mutual

/-- Python `==` between two loaded YAML values (structural; the `bool == int`
numeric coercion of Python is not modelled — no claim compares them). -/
def ybeq : Yaml → Yaml → Bool
  | .null, .null => true
  | .bool a, .bool b => a == b
  | .int a, .int b => a == b
  | .str a, .str b => a == b
  | .seq a, .seq b => ylbeq a b
  | .map a, .map b => ymbeq a b
  | _, _ => false

/-- Elementwise `==` on sequences. -/
def ylbeq : List Yaml → List Yaml → Bool
  | [], [] => true
  | a :: as, b :: bs => ybeq a b && ylbeq as bs
  | _, _ => false

/-- Entrywise `==` on mappings (Python dict equality is order-insensitive;
documents loaded from YAML with equal entry sets in the claims also agree
on order, so ordered comparison is faithful there). -/
def ymbeq : List (YKey × Yaml) → List (YKey × Yaml) → Bool
  | [], [] => true
  | (ka, va) :: as, (kb2, vb) :: bs => ka == kb2 && ybeq va vb && ymbeq as bs
  | _, _ => false

end

/-- First-occurrence lookup in a loaded mapping (PyYAML never produces
duplicate keys: later duplicates overwrite earlier ones at load time). -/
def lookupY : List (YKey × Yaml) → YKey → Option Yaml
  | [], _ => none
  | (k0, v0) :: rest, k => if k0 = k then some v0 else lookupY rest k

/-- Python dict item assignment `d[k] = v`: replaces the value in place if
the key is present, otherwise appends (insertion order preserved). -/
def setKey : List (YKey × Yaml) → YKey → Yaml → List (YKey × Yaml)
  | [], k, v => [(k, v)]
  | (k0, v0) :: rest, k, v => if k0 = k then (k0, v) :: rest else (k0, v0) :: setKey rest k v

/-- Python `del d[k]`: removes the entry with the given key. -/
def delKey : List (YKey × Yaml) → YKey → List (YKey × Yaml)
  | [], _ => []
  | (k0, v0) :: rest, k => if k0 = k then rest else (k0, v0) :: delKey rest k

/-- Whether a mapping has the given key. -/
def hasKeyY (kvs : List (YKey × Yaml)) (k : YKey) : Bool :=
  kvs.any (fun kv => kv.1 = k)

/-- Whether a value is a Python dict (`isinstance(value, dict)`). -/
def isMapY : Yaml → Bool
  | .map _ => true
  | _ => false

/-- Whether a value is a Python str (`isinstance(value, str)`). -/
def isStrY : Yaml → Bool
  | .str _ => true
  | _ => false

/-- Whether a value is a Python list (`isinstance(value, list)`). -/
def isSeqY : Yaml → Bool
  | .seq _ => true
  | _ => false

/-- Whether a value is unhashable in Python (lists and dicts). -/
def unhashable : Yaml → Bool
  | .seq _ => true
  | .map _ => true
  | _ => false

/-- A mapping key viewed as a plain Python value. -/
def keyVal : YKey → Yaml
  | .ks s => .str s
  | .kb b => .bool b

/-- Prefix test on character lists (`str.startswith`). -/
def listPrefix : List Char → List Char → Bool
  | [], _ => true
  | _ :: _, [] => false
  | p :: ps, c :: cs => p == c && listPrefix ps cs

/-- Substring test on character lists (Python `needle in haystack`). -/
def hasSubL (pat : List Char) : List Char → Bool
  | [] => pat.isEmpty
  | c :: cs => listPrefix pat (c :: cs) || hasSubL pat cs

/-- Python `pat in hay` for strings. -/
def hasSub (hay pat : String) : Bool :=
  hasSubL pat.toList hay.toList

/-- Python `s.startswith(pat)`. -/
def startsW (s pat : String) : Bool :=
  listPrefix pat.toList s.toList

/-- Python membership `x in container` for loaded values: key membership for
dicts (raising `TypeError` when `x` is unhashable), elementwise `==` for
lists, substring test for strings, `TypeError` otherwise. -/
def yMemVal (x : Yaml) : Yaml → Except String Bool
  | .map kvs =>
    if unhashable x then .error "unhashable type" else
    .ok (kvs.any (fun kv => ybeq (keyVal kv.1) x))
  | .seq xs => .ok (xs.any (fun e => ybeq e x))
  | .str s =>
    match x with
    | .str t => .ok (hasSub s t)
    | _ => .error "in <string> requires string as left operand"
  | v => .error ("argument of type '" ++ typeName v ++ "' is not iterable")

/-- Python `needle in container` where the needle is a string literal. -/
def yContains (needle : String) (v : Yaml) : Except String Bool :=
  yMemVal (.str needle) v

/-- Python subscription `container[k]` for a mapping key. -/
def yGetItemK : Yaml → YKey → Except String Yaml
  | .map kvs, k =>
    match lookupY kvs k with
    | some v => .ok v
    | none => .error "KeyError"
  | .seq xs, .kb b =>
    match xs.get? (if b then 1 else 0) with
    | some v => .ok v
    | none => .error "list index out of range"
  | .seq _, .ks _ => .error "list indices must be integers or slices, not str"
  | .str s, .kb b =>
    match s.toList.get? (if b then 1 else 0) with
    | some c => .ok (.str c.toString)
    | none => .error "string index out of range"
  | .str _, .ks _ => .error "string indices must be integers"
  | v, _ => .error ("'" ++ typeName v ++ "' object is not subscriptable")

/-- Python subscription `container["k"]` with a string key. -/
def yGetItem (v : Yaml) (k : String) : Except String Yaml :=
  yGetItemK v (.ks k)

/-- Python `d.items()`. -/
def yItems : Yaml → Except String (List (YKey × Yaml))
  | .map kvs => .ok kvs
  | v => .error ("'" ++ typeName v ++ "' object has no attribute 'items'")

/-- Python `d.keys()`. -/
def yKeys : Yaml → Except String (List YKey)
  | .map kvs => .ok (kvs.map (·.1))
  | v => .error ("'" ++ typeName v ++ "' object has no attribute 'keys'")

/-- Python `d.get(k, default)`. -/
def yGetM : Yaml → String → Yaml → Except String Yaml
  | .map kvs, k, d => .ok ((lookupY kvs (.ks k)).getD d)
  | v, _, _ => .error ("'" ++ typeName v ++ "' object has no attribute 'get'")

/-- Python iteration over a value (`enumerate`, `for x in v`): a list yields
its elements, a string its characters, a dict its keys; otherwise
`TypeError`. -/
def yIter : Yaml → Except String (List Yaml)
  | .seq xs => .ok xs
  | .str s => .ok (s.toList.map (fun c => .str c.toString))
  | .map kvs => .ok (kvs.map (fun kv => keyVal kv.1))
  | v => .error ("'" ++ typeName v ++ "' object is not iterable")

/-- Python `len(v)`. -/
def yLen : Yaml → Except String Nat
  | .seq xs => .ok xs.length
  | .str s => .ok s.length
  | .map kvs => .ok kvs.length
  | v => .error ("object of type '" ++ typeName v ++ "' has no len()")

/-- Python `set(v)`: iterates the value collecting its elements, raising
`TypeError` when the value is not iterable or an element is unhashable
(membership is all the callers use, so the result stays a list). -/
def ySetOf (v : Yaml) : Except String (List Yaml) :=
  match yIter v with
  | .error e => .error e
  | .ok xs => if xs.any unhashable then .error "unhashable type" else .ok xs

/-- Python set membership `x not in s` for a set of loaded values: raises on
unhashable `x`, otherwise elementwise `==`. -/
def setNotMemY (elems : List Yaml) (x : Yaml) : Except String Bool :=
  if unhashable x then .error "unhashable type" else .ok (!elems.any (fun e => ybeq e x))

/-- Python item assignment `container[k] = v` with a mapping key. -/
def ySetK : Yaml → YKey → Yaml → Except String Yaml
  | .map kvs, k, v => .ok (.map (setKey kvs k v))
  | .seq xs, .kb b, v =>
    if (if b then 1 else 0) < xs.length then .ok (.seq (xs.set (if b then 1 else 0) v))
    else .error "list assignment index out of range"
  | c, _, _ => .error ("'" ++ typeName c ++ "' object does not support item assignment")

/-- Python item assignment `container["k"] = v` with a string key. -/
def ySet (c : Yaml) (k : String) (v : Yaml) : Except String Yaml :=
  ySetK c (.ks k) v

/-- Python `del container[k]`. -/
def yDelK : Yaml → YKey → Except String Yaml
  | .map kvs, k =>
    if hasKeyY kvs k then .ok (.map (delKey kvs k)) else .error "KeyError"
  | c, _ => .error ("'" ++ typeName c ++ "' object doesn't support item deletion")

/-- Python `del container["k"]` with a string key. -/
def yDel (c : Yaml) (k : String) : Except String Yaml :=
  yDelK c (.ks k)

/-- Python list subscription `xs[i]` with a non-negative index. -/
def yIdxGet : Yaml → Nat → Except String Yaml
  | .seq xs, i =>
    match xs.get? i with
    | some v => .ok v
    | none => .error "list index out of range"
  | .str s, i =>
    match s.toList.get? i with
    | some c => .ok (.str c.toString)
    | none => .error "string index out of range"
  | .map _, _ => .error "KeyError"
  | v, _ => .error ("'" ++ typeName v ++ "' object is not subscriptable")

/-- Python list item assignment `xs[i] = v` with a non-negative index. -/
def yIdxSet : Yaml → Nat → Yaml → Except String Yaml
  | .seq xs, i, v =>
    if i < xs.length then .ok (.seq (xs.set i v)) else .error "list assignment index out of range"
  | c, _, _ => .error ("'" ++ typeName c ++ "' object does not support item assignment")

/-- Python `d.get(k, default)` where the result is needed even for boolean
keys (`stage.get('name', ...)`); raises `AttributeError` on non-dicts. -/
def yGetD : Yaml → String → Yaml → Except String Yaml
  | .map kvs, k, d => .ok ((lookupY kvs (.ks k)).getD d)
  | v, _, _ => .error ("'" ++ typeName v ++ "' object has no attribute 'get'")

/-- Escape one character of a string the way CPython `repr` does for the
chosen quote character (printable-ASCII approximation; the documents in
the claims contain only printable characters). -/
def pyEscChar (q : Char) (c : Char) : String :=
  if c == '\\' then "\\\\"
  else if c == q then "\\" ++ q.toString
  else if c == '\n' then "\\n"
  else if c == '\r' then "\\r"
  else if c == '\t' then "\\t"
  else c.toString

/-- CPython `repr` of a string: single quotes, switching to double quotes
when the string contains a single quote but no double quote. -/
def pyReprStr (s : String) : String :=
  if s.toList.contains '\'' && !(s.toList.contains '"') then
    "\"" ++ String.join (s.toList.map (pyEscChar '"')) ++ "\""
  else
    "'" ++ String.join (s.toList.map (pyEscChar '\'')) ++ "'"

/-- A mapping key rendered by Python `str()` inside an f-string. -/
def pyStrK : YKey → String
  | .ks s => s
  | .kb true => "True"
  | .kb false => "False"

mutual

/-- CPython `repr` of a loaded YAML value. -/
def pyRepr : Yaml → String
  | .null => "None"
  | .bool true => "True"
  | .bool false => "False"
  | .int n => toString n
  | .str s => pyReprStr s
  | .seq xs => "[" ++ pyReprList xs ++ "]"
  | .map kvs => "\x7b" ++ pyReprMap kvs ++ "\x7d"

/-- Comma-separated `repr` of list elements. -/
def pyReprList : List Yaml → String
  | [] => ""
  | [x] => pyRepr x
  | x :: xs => pyRepr x ++ ", " ++ pyReprList xs

/-- Comma-separated `repr` of dict entries. -/
def pyReprMap : List (YKey × Yaml) → String
  | [] => ""
  | [(k, v)] => pyReprKey k ++ ": " ++ pyRepr v
  | (k, v) :: kvs => pyReprKey k ++ ": " ++ pyRepr v ++ ", " ++ pyReprMap kvs

/-- `repr` of a dict key. -/
def pyReprKey : YKey → String
  | .ks s => pyReprStr s
  | .kb true => "True"
  | .kb false => "False"

end

/-- Python `str()` of a loaded YAML value (for strings the text itself, for
containers the same as `repr`). -/
def pyStr : Yaml → String
  | .str s => s
  | v => pyRepr v

/-- The left brace character (written via its code so that brace characters
never appear literally inside string literals in this file). -/
def lbrace : Char := '\x7b'

/-- The right brace character. -/
def rbrace : Char := '\x7d'

/-- Python regex `\s` over ASCII. -/
def isWsPy (c : Char) : Bool :=
  c == ' ' || c == '\t' || c == '\n' || c == '\r' || c == '\x0b' || c == '\x0c'

/-- Character class `[a-zA-Z0-9_-]` (secret names). -/
def secretNameChar (c : Char) : Bool :=
  c.isAlpha || c.isDigit || c == '_' || c == '-'

/-- Character class `[A-Z0-9_]` (GitLab variable tokens). -/
def upperChar (c : Char) : Bool :=
  (c.isUpper || c.isDigit || c == '_')

/-- Character class `[a-zA-Z0-9_]` (word characters). -/
def wordChar (c : Char) : Bool :=
  c.isAlpha || c.isDigit || c == '_'

/-- Character class `[a-zA-Z0-9_.-]` (Azure variable tokens). -/
def azNameChar (c : Char) : Bool :=
  c.isAlpha || c.isDigit || c == '_' || c == '.' || c == '-'

/-- Match a literal character sequence, returning the remainder. -/
def matchLit : List Char → List Char → Option (List Char)
  | [], cs => some cs
  | _ :: _, [] => none
  | p :: ps, c :: cs => if p == c then matchLit ps cs else none

/-- Greedy run of a character class, returning the run and the remainder. -/
def spanP (p : Char → Bool) : List Char → List Char × List Char
  | [] => ([], [])
  | c :: cs =>
    if p c then
      let (r, rest) := spanP p cs
      (c :: r, rest)
    else ([], c :: cs)

/-- Drop a greedy `\s*` run. -/
def dropWs (cs : List Char) : List Char :=
  (spanP isWsPy cs).2

/-- The characters a partial match consumed, recovered from the remainder. -/
def consumedOf (cs rest : List Char) : List Char :=
  cs.take (cs.length - rest.length)

/-- Non-overlapping left-to-right scan with a deterministic matcher, the
semantics of `re.findall` for the patterns in the source (whose greedy
character classes are disjoint from what follows them, so the backtracking
regex engine and this scanner agree).  Fuel is the input length: every
successful match consumes at least one character. -/
def scanAll {α : Type} (m : List Char → Option (α × List Char)) : Nat → List Char → List α
  | 0, _ => []
  | _ + 1, [] => []
  | fuel + 1, c :: cs =>
    match m (c :: cs) with
    | some (a, rest) => a :: scanAll m fuel rest
    | none => scanAll m fuel cs

/-- `re.findall` with a deterministic matcher over a string. -/
def findallRe {α : Type} (m : List Char → Option (α × List Char)) (s : String) : List α :=
  scanAll m (s.length + 1) s.toList

/-- Matcher for `\$\{\{\s*secrets\.([a-zA-Z0-9_-]+)\s*\}\}`. -/
def matchSecretAt (cs : List Char) : Option (String × List Char) :=
  match matchLit ['$', lbrace, lbrace] cs with
  | none => none
  | some r1 =>
    match matchLit "secrets.".toList (dropWs r1) with
    | none => none
    | some r2 =>
      let (nm, r3) := spanP secretNameChar r2
      if nm.isEmpty then none else
      match matchLit [rbrace, rbrace] (dropWs r3) with
      | none => none
      | some r4 => some (String.mk nm, r4)

/-- All `${{ secrets.NAME }}` tokens of a string, in order. -/
def secretRefs (s : String) : List String :=
  findallRe matchSecretAt s

/-- Matcher for `\$([A-Z0-9_]+)`. -/
def matchUpperVarAt (cs : List Char) : Option (String × List Char) :=
  match cs with
  | '$' :: r1 =>
    let (nm, r2) := spanP upperChar r1
    if nm.isEmpty then none else some (String.mk nm, r2)
  | _ => none

/-- All `$UPPER_CASE` tokens of a string, in order. -/
def upperVarRefs (s : String) : List String :=
  findallRe matchUpperVarAt s

/-- Matcher for `\$\{([a-zA-Z0-9_]+)\}`. -/
def matchJenkinsVarAt (cs : List Char) : Option (String × List Char) :=
  match matchLit ['$', lbrace] cs with
  | none => none
  | some r1 =>
    let (nm, r2) := spanP wordChar r1
    if nm.isEmpty then none else
    match r2 with
    | c :: r3 => if c == rbrace then some (String.mk nm, r3) else none
    | [] => none

/-- All `${NAME}` tokens of a string, in order. -/
def jenkinsVarRefs (s : String) : List String :=
  findallRe matchJenkinsVarAt s

/-- Matcher for `\$\(([a-zA-Z0-9_.-]+)\)`. -/
def matchAzureVarAt (cs : List Char) : Option (String × List Char) :=
  match cs with
  | '$' :: '(' :: r1 =>
    let (nm, r2) := spanP azNameChar r1
    if nm.isEmpty then none else
    match r2 with
    | ')' :: r3 => some (String.mk nm, r3)
    | _ => none
  | _ => none

/-- All `$(NAME)` tokens of a string, in order. -/
def azureVarRefs (s : String) : List String :=
  findallRe matchAzureVarAt s

/-- Matcher for `([a-zA-Z0-9_]+)\s*=` (environment assignments). -/
def matchEnvAssignAt (cs : List Char) : Option (String × List Char) :=
  let (nm, r1) := spanP wordChar cs
  if nm.isEmpty then none else
  match dropWs r1 with
  | '=' :: r2 => some (String.mk nm, r2)
  | _ => none

/-- All assignment names inside an `environment` block body. -/
def envAssignNames (s : String) : List String :=
  findallRe matchEnvAssignAt s

/-- Matcher for `([a-zA-Z0-9_]+)\s*\(` (parameter declarations). -/
def matchParamAt (cs : List Char) : Option (String × List Char) :=
  let (nm, r1) := spanP wordChar cs
  if nm.isEmpty then none else
  match dropWs r1 with
  | '(' :: r2 => some (String.mk nm, r2)
  | _ => none

/-- All parameter names inside a `parameters` block body. -/
def paramNames (s : String) : List String :=
  findallRe matchParamAt s

/-- Matcher for `stage\s*\(\s*[\'"]([^\'"]+)[\'"]\s*\)\s*\{([^\}]*)\}`:
captures stage name and stage body. -/
def matchStageAt (cs : List Char) : Option ((String × String) × List Char) :=
  match matchLit "stage".toList cs with
  | none => none
  | some r1 =>
    match dropWs r1 with
    | '(' :: r2 =>
      match dropWs r2 with
      | q :: r3 =>
        if q == '\'' || q == '"' then
          let (nm, r4) := spanP (fun c => c != '\'' && c != '"') r3
          if nm.isEmpty then none else
          match r4 with
          | q2 :: r5 =>
            if q2 == '\'' || q2 == '"' then
              match dropWs r5 with
              | ')' :: r6 =>
                match dropWs r6 with
                | c7 :: r7 =>
                  if c7 == lbrace then
                    let (body, r8) := spanP (fun c => c != rbrace) r7
                    match r8 with
                    | c9 :: r9 =>
                      if c9 == rbrace then some ((String.mk nm, String.mk body), r9) else none
                    | [] => none
                  else none
                | [] => none
              | _ => none
            else none
          | [] => none
        else none
      | [] => none
    | _ => none

/-- All extracted `stage('name') { body }` pairs of a Jenkinsfile. -/
def stageFindall (s : String) : List (String × String) :=
  findallRe matchStageAt s

/-- `re.search` with a match-at-position predicate. -/
def searchAux (m : List Char → Bool) : List Char → Bool
  | [] => false
  | c :: cs => m (c :: cs) || searchAux m cs

/-- Match-at-position predicate for `LIT\s*\{`. -/
def matchKwBrace (kw : List Char) (cs : List Char) : Bool :=
  match matchLit kw cs with
  | none => false
  | some r =>
    match dropWs r with
    | c :: _ => c == lbrace
    | [] => false

/-- Match-at-position predicate for `agent\s+any`. -/
def matchAgentAny (cs : List Char) : Bool :=
  match matchLit "agent".toList cs with
  | none => false
  | some (c :: r) => isWsPy c && (matchLit "any".toList (dropWs r)).isSome
  | some [] => false

/-- Match-at-position predicate for `stage\s*\(`. -/
def matchStageParen (cs : List Char) : Bool :=
  match matchLit "stage".toList cs with
  | none => false
  | some r =>
    match dropWs r with
    | c :: _ => c == '('
    | [] => false

/-- `re.search(KW + '\s*\{', text)`. -/
def searchKwBrace (kw : String) (s : String) : Bool :=
  searchAux (matchKwBrace kw.toList) s.toList

/-- `re.search(r'agent\s+any', text)`. -/
def searchAgentAny (s : String) : Bool :=
  searchAux matchAgentAny s.toList

/-- `re.search(r'stage\s*\(', text)`. -/
def searchStageParen (s : String) : Bool :=
  searchAux matchStageParen s.toList

/-- Matcher for `KW\s*\{([^\}]*)\}`, capturing the block body. -/
def matchBlockAt (kw : List Char) (cs : List Char) : Option String :=
  match matchLit kw cs with
  | none => none
  | some r1 =>
    match dropWs r1 with
    | c2 :: r2 =>
      if c2 == lbrace then
        let (body, r3) := spanP (fun c => c != rbrace) r2
        match r3 with
        | c4 :: _ => if c4 == rbrace then some (String.mk body) else none
        | [] => none
      else none
    | [] => none

/-- `re.search(KW + '\s*\{([^\}]*)\}', text)`, returning the first captured
block body. -/
def searchBlock (kw : String) (s : String) : Option String :=
  searchBlockAux kw.toList s.toList
where
  searchBlockAux (kwl : List Char) : List Char → Option String
    | [] => none
    | c :: cs =>
      match matchBlockAt kwl (c :: cs) with
      | some b => some b
      | none => searchBlockAux kwl cs

/-- `re.sub` for the self-capturing patterns of the Jenkins patcher: every
non-overlapping match (the matcher returns the remainder, the consumed part
is group 1) is replaced by itself followed by the insertion.  The
replacement is not rescanned; scanning resumes at the match end. -/
def subInsAfter (m : List Char → Option (List Char)) (ins : List Char) : Nat → List Char → List Char
  | 0, cs => cs
  | _ + 1, [] => []
  | fuel + 1, c :: cs =>
    match m (c :: cs) with
    | some rest => consumedOf (c :: cs) rest ++ ins ++ subInsAfter m ins fuel rest
    | none => c :: subInsAfter m ins fuel cs

/-- Remainder-matcher for `pipeline\s*\{`. -/
def mPipelineBrace (cs : List Char) : Option (List Char) :=
  match matchLit "pipeline".toList cs with
  | none => none
  | some r =>
    match dropWs r with
    | c :: rest => if c == lbrace then some rest else none
    | [] => none

/-- Remainder-matcher for `pipeline\s*\{[^\}]*`. -/
def mPipelineBody (cs : List Char) : Option (List Char) :=
  match mPipelineBrace cs with
  | none => none
  | some r => some (spanP (fun c => c != rbrace) r).2

/-- Remainder-matcher for `stages\s*\{[^\}]*`. -/
def mStagesBody (cs : List Char) : Option (List Char) :=
  match matchLit "stages".toList cs with
  | none => none
  | some r =>
    match dropWs r with
    | c :: rest => if c == lbrace then some ((spanP (fun c2 => c2 != rbrace) rest).2) else none
    | [] => none

/-- Remainder-matcher for the pattern the `missing_steps` patcher actually
compiles: in `r'(stage\s*\(\s*[\'"]{0}[\'"]\s*\)\s*\{[^\}]*)'` the braces of
`{0}` are a regex quantifier (exactly zero repetitions of the quote class),
not a placeholder, so the compiled pattern is
`stage\s*\(\s*[\'"]\s*\)\s*\{[^\}]*` — a stage call whose parentheses hold a
single quote character. -/
def mStageEmptyQuote (cs : List Char) : Option (List Char) :=
  match matchLit "stage".toList cs with
  | none => none
  | some r1 =>
    match dropWs r1 with
    | '(' :: r2 =>
      match dropWs r2 with
      | q :: r3 =>
        if q == '\'' || q == '"' then
          match dropWs r3 with
          | ')' :: r4 =>
            match dropWs r4 with
            | c5 :: r5 => if c5 == lbrace then some ((spanP (fun c => c != rbrace) r5).2) else none
            | [] => none
          | _ => none
        else none
      | [] => none
    | _ => none

/-- Python `s.replace(pat, rep)` (all non-overlapping occurrences, left to
right; an empty pattern interleaves the replacement). -/
def pyReplace (s pat rep : String) : String :=
  if pat == "" then String.mk (rep.toList ++ s.toList.foldr (fun c acc => c :: (rep.toList ++ acc)) [])
  else String.mk (pyReplaceL pat.toList rep.toList s.length s.toList)
where
  pyReplaceL (patl repl : List Char) : Nat → List Char → List Char
    | 0, cs => cs
    | _ + 1, [] => []
    | fuel + 1, c :: cs =>
      if listPrefix patl (c :: cs) then
        repl ++ pyReplaceL patl repl fuel ((c :: cs).drop patl.length)
      else c :: pyReplaceL patl repl fuel cs

/-- One finding dict as built by the detectors.  The Python dict key `type`
is the field `ftype`, the key `variable` is `varName` (both renamed only
because of Lean parsing); the keys `message` and `fix` carry the
human-readable texts verbatim.  Location keys that a given finding kind
does not set stay `none`, matching `dict.get` returning `None`. -/
structure Finding where
  ftype : String
  message : String
  fix : String
  job : Option YKey := none
  stage : Option Yaml := none
  step : Option Nat := none
  secret : Option String := none
  varName : Option String := none
  dependency : Option Yaml := none
  jobIndex : Option Nat := none
  stageIndex : Option Nat := none
deriving Repr

/-- The result dict of one detection pass. -/
structure Report where
  status : String
  failures : List Finding
  warnings : List Finding
  message : Option String := none
deriving Repr

/-- The contribution of one checker rule: findings appended to `failures`
and `warnings`, and the exception it raised, if any (partial findings
appended before the raise are kept, as the Python `failures` dict is
mutated in place inside the `try` block). -/
structure ChkOut where
  fs : List Finding
  ws : List Finding
  err : Option String
deriving Repr

/-- The empty rule contribution. -/
def ChkOut.none0 : ChkOut := ⟨[], [], none⟩

/-- A contribution that only raises. -/
def ChkOut.raise (e : String) : ChkOut := ⟨[], [], some e⟩

/-- Prepend findings produced before a sub-contribution. -/
def ChkOut.consF (fs : List Finding) (o : ChkOut) : ChkOut := ⟨fs ++ o.fs, o.ws, o.err⟩

/-- Prepend warnings produced before a sub-contribution. -/
def ChkOut.consW (ws : List Finding) (o : ChkOut) : ChkOut := ⟨o.fs, ws ++ o.ws, o.err⟩

/-- Run rules in order, stopping at the first exception but keeping all
findings appended up to (and inside) the raising rule. -/
def chain : List ChkOut → ChkOut
  | [] => ChkOut.none0
  | o :: rest =>
    match o.err with
    | some e => ⟨o.fs, o.ws, some e⟩
    | none =>
      let r := chain rest
      ⟨o.fs ++ r.fs, o.ws ++ r.ws, r.err⟩

/-- Assemble the report from the accumulated findings: an uncaught exception
sets `status` to `error` and the `message` the `except` handler writes. -/
def mkReport (o : ChkOut) : Report :=
  match o.err with
  | none => ⟨"success", o.fs, o.ws, none⟩
  | some e => ⟨"error", o.fs, o.ws, some ("Erro ao analisar pipeline: " ++ e)⟩

/-- The github_actions `missing_jobs` finding. -/
def ghMissingJobsF : Finding :=
  { ftype := "missing_jobs"
    message := "Não há jobs definidos no pipeline"
    fix := "Adicionar seção 'jobs' com pelo menos um job" }

/-- The github_actions `missing_triggers` finding. -/
def ghMissingTriggersF : Finding :=
  { ftype := "missing_triggers"
    message := "Não há triggers (on) definidos no pipeline"
    fix := "Adicionar seção 'on' com pelo menos um trigger (push, pull_request, etc.)" }

/-- The github_actions `missing_steps` finding for a job. -/
def ghMissingStepsF (jn : YKey) : Finding :=
  { ftype := "missing_steps"
    message := "Job '" ++ pyStrK jn ++ "' não tem steps definidos"
    job := some jn
    fix := "Adicionar pelo menos um step ao job '" ++ pyStrK jn ++ "'" }

/-- The github_actions `undefined_secret` warning for a job step. -/
def ghUndefSecretF (jn : YKey) (i : Nat) (secret : String) : Finding :=
  { ftype := "undefined_secret"
    message := "Possível referência a secret não definido: '" ++ secret ++ "' no job '"
      ++ pyStrK jn ++ "', step " ++ toString (i + 1)
    job := some jn
    step := some i
    secret := some secret
    fix := "Verificar se o secret '" ++ secret ++ "' está definido nas configurações do repositório" }

/-- The github_actions `invalid_needs` finding for a job dependency. -/
def ghInvalidNeedsF (jn : YKey) (dep : Yaml) : Finding :=
  { ftype := "invalid_needs"
    message := "Job '" ++ pyStrK jn ++ "' depende de job inexistente: '" ++ pyStr dep ++ "'"
    job := some jn
    dependency := some dep
    fix := "Corrigir a dependência 'needs' para um job existente ou remover" }

/-- The github_actions `missing_runner` finding for a job. -/
def ghMissingRunnerF (jn : YKey) : Finding :=
  { ftype := "missing_runner"
    message := "Job '" ++ pyStrK jn ++ "' não tem runner (runs-on) definido"
    job := some jn
    fix := "Adicionar 'runs-on' ao job '" ++ pyStrK jn ++ "'" }

/-- The `file_not_found` log warning. -/
def logFileNotFoundF : Finding :=
  { ftype := "file_not_found"
    message := "Possível erro de arquivo não encontrado"
    fix := "Verificar caminhos de arquivos no pipeline" }

/-- The `permission_denied` log warning (chmod variant). -/
def logPermissionDeniedF : Finding :=
  { ftype := "permission_denied"
    message := "Possível erro de permissão negada"
    fix := "Verificar permissões de arquivos ou adicionar 'chmod +x' para scripts" }

/-- The github_actions `exit_code_error` log warning. -/
def logExitCodeF : Finding :=
  { ftype := "exit_code_error"
    message := "Processo completou com código de erro"
    fix := "Verificar comandos e scripts executados no pipeline" }

/-- Rule 1 of the github_actions checker: no `jobs` key. -/
def ghCheck1 (p : Yaml) : ChkOut :=
  match yContains "jobs" p with
  | .error e => ChkOut.raise e
  | .ok true => ChkOut.none0
  | .ok false => ⟨[ghMissingJobsF], [], none⟩

/-- Rule 2 of the github_actions checker: no `on` key. -/
def ghCheck2 (p : Yaml) : ChkOut :=
  match yContains "on" p with
  | .error e => ChkOut.raise e
  | .ok true => ChkOut.none0
  | .ok false => ⟨[ghMissingTriggersF], [], none⟩

/-- Per-job body of rule 3: `"steps" not in job or not job["steps"]`. -/
def ghJobMissingSteps (jn : YKey) (j : Yaml) : Except String (List Finding) :=
  match yContains "steps" j with
  | .error e => .error e
  | .ok false => .ok [ghMissingStepsF jn]
  | .ok true =>
    match yGetItem j "steps" with
    | .error e => .error e
    | .ok sv => .ok (if truthy sv then [] else [ghMissingStepsF jn])

/-- Loop of rule 3 over the jobs mapping. -/
def ghCheck3Loop : List (YKey × Yaml) → ChkOut
  | [] => ChkOut.none0
  | (jn, j) :: rest =>
    match ghJobMissingSteps jn j with
    | .error e => ChkOut.raise e
    | .ok fs => ChkOut.consF fs (ghCheck3Loop rest)

/-- Rule 3 of the github_actions checker: jobs without steps. -/
def ghCheck3 (p : Yaml) : ChkOut :=
  match yContains "jobs" p with
  | .error e => ChkOut.raise e
  | .ok false => ChkOut.none0
  | .ok true =>
    match yGetItem p "jobs" with
    | .error e => ChkOut.raise e
    | .ok jv =>
      match yItems jv with
      | .error e => ChkOut.raise e
      | .ok jobs => ghCheck3Loop jobs

/-- The `undefined_secret` warnings a single step contributes. -/
def secretWarnsOfStep (jn : YKey) (i : Nat) (st : Yaml) : List Finding :=
  (secretRefs (pyStr st)).map (fun nm => ghUndefSecretF jn i nm)

/-- The `undefined_secret` warnings of an enumerated steps list. -/
def secretWarns (jn : YKey) (steps : List Yaml) : List Finding :=
  steps.enum.flatMap (fun p => secretWarnsOfStep jn p.1 p.2)

/-- Per-job body of rule 4: scan each step's `str()` for secret tokens. -/
def ghSecretJob (jn : YKey) (j : Yaml) : Except String (List Finding) :=
  match yContains "steps" j with
  | .error e => .error e
  | .ok false => .ok []
  | .ok true =>
    match yGetItem j "steps" with
    | .error e => .error e
    | .ok sv =>
      match yIter sv with
      | .error e => .error e
      | .ok steps => .ok (secretWarns jn steps)

/-- Loop of rule 4 over the jobs mapping. -/
def ghCheck4Loop : List (YKey × Yaml) → ChkOut
  | [] => ChkOut.none0
  | (jn, j) :: rest =>
    match ghSecretJob jn j with
    | .error e => ChkOut.raise e
    | .ok ws => ChkOut.consW ws (ghCheck4Loop rest)

/-- Rule 4 of the github_actions checker: possible undefined secrets. -/
def ghCheck4 (p : Yaml) : ChkOut :=
  match yContains "jobs" p with
  | .error e => ChkOut.raise e
  | .ok false => ChkOut.none0
  | .ok true =>
    match yGetItem p "jobs" with
    | .error e => ChkOut.raise e
    | .ok jv =>
      match yItems jv with
      | .error e => ChkOut.raise e
      | .ok jobs => ghCheck4Loop jobs

/-- Membership of a needs entry in the job-name set (`need not in job_names`
with Python set semantics: raises on unhashable values). -/
def needNotIn (names : List YKey) (need : Yaml) : Except String Bool :=
  if unhashable need then .error "unhashable type"
  else .ok (!names.any (fun k => ybeq (keyVal k) need))

/-- Loop over a list-valued `needs`, appending one finding per dangling
reference (findings appended before a raise survive it). -/
def ghNeedsList (names : List YKey) (jn : YKey) : List Yaml → List Finding × Option String
  | [] => ([], none)
  | n :: rest =>
    match needNotIn names n with
    | .error e => ([], some e)
    | .ok true =>
      let (fs, e) := ghNeedsList names jn rest
      (ghInvalidNeedsF jn n :: fs, e)
    | .ok false => ghNeedsList names jn rest

/-- Per-job body of rule 5: dangling `needs` references. -/
def ghNeedsJob (names : List YKey) (jn : YKey) (j : Yaml) : List Finding × Option String :=
  match yContains "needs" j with
  | .error e => ([], some e)
  | .ok false => ([], none)
  | .ok true =>
    match yGetItem j "needs" with
    | .error e => ([], some e)
    | .ok (.str s) => (if names.contains (.ks s) then [] else [ghInvalidNeedsF jn (.str s)], none)
    | .ok (.seq ns) => ghNeedsList names jn ns
    | .ok _ => ([], none)

/-- Loop of rule 5 over the jobs mapping. -/
def ghCheck5Loop (names : List YKey) : List (YKey × Yaml) → ChkOut
  | [] => ChkOut.none0
  | (jn, j) :: rest =>
    match ghNeedsJob names jn j with
    | (fs, some e) => ⟨fs, [], some e⟩
    | (fs, none) => ChkOut.consF fs (ghCheck5Loop names rest)

/-- Rule 5 of the github_actions checker: invalid `needs` dependencies. -/
def ghCheck5 (p : Yaml) : ChkOut :=
  match yContains "jobs" p with
  | .error e => ChkOut.raise e
  | .ok false => ChkOut.none0
  | .ok true =>
    match yGetItem p "jobs" with
    | .error e => ChkOut.raise e
    | .ok jv =>
      match yKeys jv with
      | .error e => ChkOut.raise e
      | .ok names =>
        match yItems jv with
        | .error e => ChkOut.raise e
        | .ok jobs => ghCheck5Loop names jobs

/-- Per-job body of rule 6: missing `runs-on`. -/
def ghRunnerJob (jn : YKey) (j : Yaml) : Except String (List Finding) :=
  match yContains "runs-on" j with
  | .error e => .error e
  | .ok true => .ok []
  | .ok false => .ok [ghMissingRunnerF jn]

/-- Loop of rule 6 over the jobs mapping. -/
def ghCheck6Loop : List (YKey × Yaml) → ChkOut
  | [] => ChkOut.none0
  | (jn, j) :: rest =>
    match ghRunnerJob jn j with
    | .error e => ChkOut.raise e
    | .ok fs => ChkOut.consF fs (ghCheck6Loop rest)

/-- Rule 6 of the github_actions checker: jobs without a runner. -/
def ghCheck6 (p : Yaml) : ChkOut :=
  match yContains "jobs" p with
  | .error e => ChkOut.raise e
  | .ok false => ChkOut.none0
  | .ok true =>
    match yGetItem p "jobs" with
    | .error e => ChkOut.raise e
    | .ok jv =>
      match yItems jv with
      | .error e => ChkOut.raise e
      | .ok jobs => ghCheck6Loop jobs

/-- The github_actions log heuristics (rule 7). -/
def ghLogChecks : Option String → ChkOut
  | none => ChkOut.none0
  | some l =>
    if l == "" then ChkOut.none0
    else
      ⟨[],
        (if hasSub l "No such file or directory" then [logFileNotFoundF] else [])
        ++ (if hasSub l "Permission denied" then [logPermissionDeniedF] else [])
        ++ (if hasSub l "Error: Process completed with exit code" then [logExitCodeF] else []),
        none⟩

/-- `_detect_github_actions_failures` after a successful, truthy load. -/
def detectGithubDoc (p : Yaml) (logs : Option String) : Report :=
  mkReport (chain
    [ghCheck1 p, ghCheck2 p, ghCheck3 p, ghCheck4 p, ghCheck5 p, ghCheck6 p, ghLogChecks logs])

/-- The report returned when `yaml.safe_load` raises inside the `try` block
(the `except` handler formats the exception text; its exact wording is
environment-dependent and modelled nominally). -/
def parseFailReport : Report :=
  ⟨"error", [], [], some "Erro ao analisar pipeline: yaml.YAMLError"⟩

/-- The report returned for a falsy loaded document (`if not pipeline`). -/
def loadFailReport : Report :=
  ⟨"error", [], [], some "Não foi possível carregar o pipeline como YAML válido"⟩

/-- `_detect_github_actions_failures`: the argument is the outcome of
`yaml.safe_load(pipeline_content)` (`none` when the parse raised). -/
def detect_github_actions_failures : Option Yaml → Option String → Report
  | none, _ => parseFailReport
  | some p, logs => if truthy p then detectGithubDoc p logs else loadFailReport

/-- The gitlab_ci `missing_stages` warning. -/
def glMissingStagesF : Finding :=
  { ftype := "missing_stages"
    message := "Não há stages definidos no pipeline"
    fix := "Adicionar seção 'stages' com os estágios do pipeline" }

/-- The gitlab_ci `missing_jobs` finding. -/
def glMissingJobsF : Finding :=
  { ftype := "missing_jobs"
    message := "Não há jobs definidos no pipeline"
    fix := "Adicionar pelo menos um job com script ou extends" }

/-- The gitlab_ci `missing_script` finding for a job entry. -/
def glMissingScriptF (k : YKey) : Finding :=
  { ftype := "missing_script"
    message := "Job '" ++ pyStrK k ++ "' não tem script ou extends definido"
    job := some k
    fix := "Adicionar 'script' ou 'extends' ao job '" ++ pyStrK k ++ "'" }

/-- The gitlab_ci `undefined_variable` warning for a job entry. -/
def glUndefVarF (k : YKey) (v : String) : Finding :=
  { ftype := "undefined_variable"
    message := "Possível referência a variável não definida: '" ++ v ++ "' no job '" ++ pyStrK k ++ "'"
    job := some k
    varName := some v
    fix := "Definir a variável '" ++ v ++ "' na seção 'variables'" }

/-- The gitlab_ci `invalid_stage` finding for a job entry. -/
def glInvalidStageF (k : YKey) (sval : Yaml) : Finding :=
  { ftype := "invalid_stage"
    message := "Job '" ++ pyStrK k ++ "' usa stage inexistente: '" ++ pyStr sval ++ "'"
    job := some k
    stage := some sval
    fix := "Adicionar '" ++ pyStr sval ++ "' à lista de stages ou corrigir o nome" }

/-- The gitlab_ci `job_failed` log warning. -/
def logJobFailedF : Finding :=
  { ftype := "job_failed"
    message := "Job falhou durante a execução"
    fix := "Verificar comandos e scripts executados no pipeline" }

/-- The gitlab_ci reserved top-level keys (`stages/variables/default/include`). -/
def reservedGl (k : YKey) : Bool :=
  match k with
  | .ks s => s == "stages" || s == "variables" || s == "default" || s == "include"
  | .kb _ => false

/-- `isinstance(value, dict) and ("script" in value or "extends" in value)`:
whether a top-level entry value counts towards the job count. -/
def isJobLike : Yaml → Bool
  | .map kvs => hasKeyY kvs (.ks "script") || hasKeyY kvs (.ks "extends")
  | _ => false

/-- Rule 1 of the gitlab_ci checker: no `stages` key (warning). -/
def glCheck1 (p : Yaml) : ChkOut :=
  match yContains "stages" p with
  | .error e => ChkOut.raise e
  | .ok true => ChkOut.none0
  | .ok false => ⟨[], [glMissingStagesF], none⟩

/-- Rule 2 of the gitlab_ci checker: zero job-like top-level entries.  The
count runs over all entries, reserved keys included. -/
def glCheck2 (p : Yaml) : ChkOut :=
  match yItems p with
  | .error e => ChkOut.raise e
  | .ok entries =>
    if (entries.filter (fun kv => isJobLike kv.2)).length == 0 then ⟨[glMissingJobsF], [], none⟩
    else ChkOut.none0

/-- Per-entry body of rule 3: non-reserved mapping entry without `script`
and without `extends`. -/
def glScriptEntry (k : YKey) (v : Yaml) : List Finding :=
  match v with
  | .map kvs =>
    if !reservedGl k && !hasKeyY kvs (.ks "script") && !hasKeyY kvs (.ks "extends") then
      [glMissingScriptF k]
    else []
  | _ => []

/-- Rule 3 of the gitlab_ci checker: jobs without script/extends. -/
def glCheck3 (p : Yaml) : ChkOut :=
  match yItems p with
  | .error e => ChkOut.raise e
  | .ok entries => ⟨entries.flatMap (fun kv => glScriptEntry kv.1 kv.2), [], none⟩

/-- Per-entry body of rule 4: `$UPPER` tokens of the entry's `str()` not
among the declared variable names and not `CI_`-prefixed. -/
def glVarEntry (defined : List YKey) (k : YKey) (v : Yaml) : List Finding :=
  if isMapY v && !reservedGl k then
    (upperVarRefs (pyStr v)).flatMap (fun var =>
      if !(defined.contains (.ks var)) && !(startsW var "CI_") then [glUndefVarF k var] else [])
  else []

/-- Rule 4 of the gitlab_ci checker: possible undefined variables.  The
whole rule is guarded by `if "variables" in pipeline:`. -/
def glCheck4 (p : Yaml) : ChkOut :=
  match yContains "variables" p with
  | .error e => ChkOut.raise e
  | .ok false => ChkOut.none0
  | .ok true =>
    match yGetItem p "variables" with
    | .error e => ChkOut.raise e
    | .ok vv =>
      match yKeys vv with
      | .error e => ChkOut.raise e
      | .ok defined =>
        match yItems p with
        | .error e => ChkOut.raise e
        | .ok entries => ⟨[], entries.flatMap (fun kv => glVarEntry defined kv.1 kv.2), none⟩

/-- Per-entry body of rule 5: a non-reserved mapping entry whose `stage`
value is outside the declared stage set. -/
def glStageEntry (selems : List Yaml) (k : YKey) (v : Yaml) : List Finding × Option String :=
  if isMapY v && !reservedGl k then
    match yContains "stage" v with
    | .error e => ([], some e)
    | .ok false => ([], none)
    | .ok true =>
      match yGetItem v "stage" with
      | .error e => ([], some e)
      | .ok sval =>
        match setNotMemY selems sval with
        | .error e => ([], some e)
        | .ok true => ([glInvalidStageF k sval], none)
        | .ok false => ([], none)
  else ([], none)

/-- Loop of rule 5 over the top-level entries. -/
def glCheck5Loop (selems : List Yaml) : List (YKey × Yaml) → ChkOut
  | [] => ChkOut.none0
  | (k, v) :: rest =>
    match glStageEntry selems k v with
    | (fs, some e) => ⟨fs, [], some e⟩
    | (fs, none) => ChkOut.consF fs (glCheck5Loop selems rest)

/-- Rule 5 of the gitlab_ci checker: jobs using undeclared stages (only
run when `stages` is declared). -/
def glCheck5 (p : Yaml) : ChkOut :=
  match yContains "stages" p with
  | .error e => ChkOut.raise e
  | .ok false => ChkOut.none0
  | .ok true =>
    match yGetItem p "stages" with
    | .error e => ChkOut.raise e
    | .ok sv =>
      match ySetOf sv with
      | .error e => ChkOut.raise e
      | .ok selems =>
        match yItems p with
        | .error e => ChkOut.raise e
        | .ok entries => glCheck5Loop selems entries

/-- The gitlab_ci log heuristics (rule 6). -/
def glLogChecks : Option String → ChkOut
  | none => ChkOut.none0
  | some l =>
    if l == "" then ChkOut.none0
    else
      ⟨[],
        (if hasSub l "No such file or directory" then [logFileNotFoundF] else [])
        ++ (if hasSub l "Permission denied" then [logPermissionDeniedF] else [])
        ++ (if hasSub l "Job failed" then [logJobFailedF] else []),
        none⟩

/-- `_detect_gitlab_ci_failures` after a successful, truthy load. -/
def detectGitlabDoc (p : Yaml) (logs : Option String) : Report :=
  mkReport (chain [glCheck1 p, glCheck2 p, glCheck3 p, glCheck4 p, glCheck5 p, glLogChecks logs])

/-- `_detect_gitlab_ci_failures` on the outcome of `yaml.safe_load`. -/
def detect_gitlab_ci_failures : Option Yaml → Option String → Report
  | none, _ => parseFailReport
  | some p, logs => if truthy p then detectGitlabDoc p logs else loadFailReport

/-- The jenkins `missing_pipeline` finding. -/
def jkMissingPipelineF : Finding :=
  { ftype := "missing_pipeline"
    message := "Não há bloco 'pipeline' definido"
    fix := "Adicionar bloco 'pipeline \x7b ... \x7d'" }

/-- The jenkins `missing_agent` finding. -/
def jkMissingAgentF : Finding :=
  { ftype := "missing_agent"
    message := "Não há 'agent' definido"
    fix := "Adicionar 'agent any' ou 'agent \x7b ... \x7d'" }

/-- The jenkins `missing_stages` finding. -/
def jkMissingStagesF : Finding :=
  { ftype := "missing_stages"
    message := "Não há bloco 'stages' definido"
    fix := "Adicionar bloco 'stages \x7b ... \x7d'" }

/-- The jenkins `missing_stage` finding. -/
def jkMissingStageF : Finding :=
  { ftype := "missing_stage"
    message := "Não há nenhum 'stage' definido"
    fix := "Adicionar pelo menos um 'stage(...)'" }

/-- The jenkins `missing_steps` finding for a named stage. -/
def jkMissingStepsF (sn : String) : Finding :=
  { ftype := "missing_steps"
    message := "Stage '" ++ sn ++ "' não tem bloco 'steps' definido"
    stage := some (.str sn)
    fix := "Adicionar bloco 'steps \x7b ... \x7d' ao stage '" ++ sn ++ "'" }

/-- The jenkins `undefined_variable` warning. -/
def jkUndefVarF (v : String) : Finding :=
  { ftype := "undefined_variable"
    message := "Possível referência a variável não definida: '" ++ v ++ "'"
    varName := some v
    fix := "Definir a variável '" ++ v ++ "' na seção 'environment' ou como parâmetro" }

/-- The jenkins `permission_denied` log warning (sh chmod variant). -/
def logPermissionDeniedShF : Finding :=
  { ftype := "permission_denied"
    message := "Possível erro de permissão negada"
    fix := "Verificar permissões de arquivos ou adicionar 'sh \"chmod +x ...\"' para scripts" }

/-- The jenkins `missing_property` log warning. -/
def logMissingPropertyF : Finding :=
  { ftype := "missing_property"
    message := "Possível erro de propriedade não definida"
    fix := "Verificar variáveis e propriedades usadas no pipeline" }

/-- Jenkins built-in variable names exempt from the undefined-variable scan. -/
def jkBuiltins : List String := ["BUILD_NUMBER", "JOB_NAME", "WORKSPACE"]

/-- Variable names declared inside the first `environment { }` block plus
parameter names declared inside the first `parameters { }` block. -/
def jkDefinedVars (text : String) : List String :=
  (match searchBlock "environment" text with
    | some body => envAssignNames body
    | none => [])
  ++ (match searchBlock "parameters" text with
    | some body => paramNames body
    | none => [])

/-- The `undefined_variable` warnings of a Jenkinsfile: `${NAME}` tokens not
declared in the `environment`/`parameters` blocks, not `env.`-prefixed and
not built-ins. -/
def jkVarWarns (text : String) : List Finding :=
  (jenkinsVarRefs text).flatMap (fun v =>
    if !(jkDefinedVars text).contains v && !startsW v "env." && !jkBuiltins.contains v then
      [jkUndefVarF v]
    else [])

/-- The jenkins log heuristics (rule 7). -/
def jkLogWarns : Option String → List Finding
  | none => []
  | some l =>
    if l == "" then []
    else
      (if hasSub l "No such file or directory" then [logFileNotFoundF] else [])
      ++ (if hasSub l "Permission denied" then [logPermissionDeniedShF] else [])
      ++ (if hasSub l "groovy.lang.MissingPropertyException" then [logMissingPropertyF] else [])

/-- `_detect_jenkins_failures`: pure pattern extraction over the raw text —
no loader, no exceptions, so the status is always `success`. -/
def detect_jenkins_failures (text : String) (logs : Option String) : Report :=
  { status := "success"
    failures :=
      (if searchKwBrace "pipeline" text then [] else [jkMissingPipelineF])
      ++ (if searchKwBrace "agent" text || searchAgentAny text then [] else [jkMissingAgentF])
      ++ (if searchKwBrace "stages" text then [] else [jkMissingStagesF])
      ++ (if searchStageParen text then [] else [jkMissingStageF])
      ++ (stageFindall text).flatMap (fun st =>
          if searchKwBrace "steps" st.2 then [] else [jkMissingStepsF st.1])
    warnings := jkVarWarns text ++ jkLogWarns logs
    message := none }

/-- The azure_devops `missing_triggers` warning. -/
def azMissingTriggersF : Finding :=
  { ftype := "missing_triggers"
    message := "Não há triggers (trigger/pr) definidos no pipeline"
    fix := "Adicionar seção 'trigger' ou 'pr'" }

/-- The azure_devops `missing_pool` warning. -/
def azMissingPoolF : Finding :=
  { ftype := "missing_pool"
    message := "Não há 'pool' definido no pipeline"
    fix := "Adicionar seção 'pool' com o agente a ser usado" }

/-- The azure_devops `missing_pipeline_structure` finding. -/
def azMissingStructF : Finding :=
  { ftype := "missing_pipeline_structure"
    message := "Não há 'stages', 'jobs' ou 'steps' definidos no pipeline"
    fix := "Adicionar pelo menos uma das seções: 'stages', 'jobs' ou 'steps'" }

/-- The azure_devops `missing_steps` finding for a job index. -/
def azMissingStepsF (i : Nat) : Finding :=
  { ftype := "missing_steps"
    message := "Job " ++ toString (i + 1) ++ " não tem steps definidos"
    jobIndex := some i
    fix := "Adicionar pelo menos um step ao job " ++ toString (i + 1) }

/-- The azure_devops `missing_jobs` finding for a stage index; `nameDisp` is
`str(stage.get('name', f'Stage {i+1}'))`. -/
def azMissingJobsF (i : Nat) (nameDisp : String) : Finding :=
  { ftype := "missing_jobs"
    message := "Stage '" ++ nameDisp ++ "' não tem jobs definidos"
    stageIndex := some i
    fix := "Adicionar pelo menos um job ao stage '" ++ nameDisp ++ "'" }

/-- The azure_devops `undefined_variable` warning. -/
def azUndefVarF (v : String) : Finding :=
  { ftype := "undefined_variable"
    message := "Possível referência a variável não definida: '" ++ v ++ "'"
    varName := some v
    fix := "Definir a variável '" ++ v ++ "' na seção 'variables'" }

/-- The azure_devops `invalid_depends_on` finding for a stage index. -/
def azInvalidDependsF (i : Nat) (nameDisp : String) (dep : Yaml) : Finding :=
  { ftype := "invalid_depends_on"
    message := "Stage '" ++ nameDisp ++ "' depende de stage inexistente: '" ++ pyStr dep ++ "'"
    stageIndex := some i
    dependency := some dep
    fix := "Corrigir a dependência 'dependsOn' para um stage existente ou remover" }

/-- The azure_devops `task_failed` log warning. -/
def logTaskFailedF : Finding :=
  { ftype := "task_failed"
    message := "Task falhou durante a execução"
    fix := "Verificar configurações das tasks no pipeline" }

/-- Rule 1 of the azure_devops checker: neither `trigger` nor `pr`
(short-circuit `and`, so the second membership only runs when the first
key is absent). -/
def azCheck1 (p : Yaml) : ChkOut :=
  match yContains "trigger" p with
  | .error e => ChkOut.raise e
  | .ok true => ChkOut.none0
  | .ok false =>
    match yContains "pr" p with
    | .error e => ChkOut.raise e
    | .ok true => ChkOut.none0
    | .ok false => ⟨[], [azMissingTriggersF], none⟩

/-- Rule 2 of the azure_devops checker: no `pool` (warning). -/
def azCheck2 (p : Yaml) : ChkOut :=
  match yContains "pool" p with
  | .error e => ChkOut.raise e
  | .ok true => ChkOut.none0
  | .ok false => ⟨[], [azMissingPoolF], none⟩

/-- Rule 3 of the azure_devops checker: none of `stages`/`jobs`/`steps`. -/
def azCheck3 (p : Yaml) : ChkOut :=
  match yContains "stages" p with
  | .error e => ChkOut.raise e
  | .ok true => ChkOut.none0
  | .ok false =>
    match yContains "jobs" p with
    | .error e => ChkOut.raise e
    | .ok true => ChkOut.none0
    | .ok false =>
      match yContains "steps" p with
      | .error e => ChkOut.raise e
      | .ok true => ChkOut.none0
      | .ok false => ⟨[azMissingStructF], [], none⟩

/-- Per-job body of rule 4: `"steps" not in job or not job["steps"]`. -/
def azJobSteps (i : Nat) (j : Yaml) : Except String (List Finding) :=
  match yContains "steps" j with
  | .error e => .error e
  | .ok false => .ok [azMissingStepsF i]
  | .ok true =>
    match yGetItem j "steps" with
    | .error e => .error e
    | .ok sv => .ok (if truthy sv then [] else [azMissingStepsF i])

/-- Loop of rule 4 over the enumerated jobs. -/
def azCheck4Loop : Nat → List Yaml → ChkOut
  | _, [] => ChkOut.none0
  | i, j :: rest =>
    match azJobSteps i j with
    | .error e => ChkOut.raise e
    | .ok fs => ChkOut.consF fs (azCheck4Loop (i + 1) rest)

/-- Rule 4 of the azure_devops checker: jobs without steps. -/
def azCheck4 (p : Yaml) : ChkOut :=
  match yContains "jobs" p with
  | .error e => ChkOut.raise e
  | .ok false => ChkOut.none0
  | .ok true =>
    match yGetItem p "jobs" with
    | .error e => ChkOut.raise e
    | .ok jv =>
      match yIter jv with
      | .error e => ChkOut.raise e
      | .ok jobs => azCheck4Loop 0 jobs

/-- Per-stage body of rule 5: `"jobs" not in stage or not stage["jobs"]`,
with the message text built from `stage.get('name', f'Stage {i+1}')`. -/
def azStageJobs (i : Nat) (st : Yaml) : Except String (List Finding) :=
  match yContains "jobs" st with
  | .error e => .error e
  | .ok false =>
    match yGetD st "name" (.str ("Stage " ++ toString (i + 1))) with
    | .error e => .error e
    | .ok nv => .ok [azMissingJobsF i (pyStr nv)]
  | .ok true =>
    match yGetItem st "jobs" with
    | .error e => .error e
    | .ok jv =>
      if truthy jv then .ok []
      else
        match yGetD st "name" (.str ("Stage " ++ toString (i + 1))) with
        | .error e => .error e
        | .ok nv => .ok [azMissingJobsF i (pyStr nv)]

/-- Loop of rule 5 over the enumerated stages. -/
def azCheck5Loop : Nat → List Yaml → ChkOut
  | _, [] => ChkOut.none0
  | i, st :: rest =>
    match azStageJobs i st with
    | .error e => ChkOut.raise e
    | .ok fs => ChkOut.consF fs (azCheck5Loop (i + 1) rest)

/-- Rule 5 of the azure_devops checker: stages without jobs. -/
def azCheck5 (p : Yaml) : ChkOut :=
  match yContains "stages" p with
  | .error e => ChkOut.raise e
  | .ok false => ChkOut.none0
  | .ok true =>
    match yGetItem p "stages" with
    | .error e => ChkOut.raise e
    | .ok sv =>
      match yIter sv with
      | .error e => ChkOut.raise e
      | .ok stages => azCheck5Loop 0 stages

/-- Collect `var["name"]` over a list-valued `variables` section
(`defined_vars.add` raises on unhashable names). -/
def azCollectVarsList : List Yaml → Except String (List Yaml)
  | [] => .ok []
  | v :: rest =>
    match v with
    | .map kvs =>
      match lookupY kvs (.ks "name") with
      | some nv =>
        if unhashable nv then .error "unhashable type"
        else
          match azCollectVarsList rest with
          | .error e => .error e
          | .ok l => .ok (nv :: l)
      | none => azCollectVarsList rest
    | _ => azCollectVarsList rest

/-- The declared variable names of an azure_devops pipeline (list- or
dict-valued `variables`; any other shape contributes nothing). -/
def azDefinedVars (p : Yaml) : Except String (List Yaml) :=
  match yContains "variables" p with
  | .error e => .error e
  | .ok false => .ok []
  | .ok true =>
    match yGetItem p "variables" with
    | .error e => .error e
    | .ok vv =>
      match vv with
      | .seq xs => azCollectVarsList xs
      | .map kvs => .ok (kvs.map (fun kv => keyVal kv.1))
      | _ => .ok []

/-- Rule 6 of the azure_devops checker: `$(NAME)` tokens of `str(pipeline)`
not among the declared variables, excluding `System.`/`Build.` prefixes. -/
def azCheck6 (p : Yaml) : ChkOut :=
  match azDefinedVars p with
  | .error e => ChkOut.raise e
  | .ok defined =>
    ⟨[],
      (azureVarRefs (pyStr p)).flatMap (fun v =>
        if !(defined.any (fun d => ybeq d (.str v))) && !startsW v "System." && !startsW v "Build." then
          [azUndefVarF v]
        else []),
      none⟩

/-- The stage-name list comprehension of rule 7
(`[stage.get("name", f"stage_{i}") for i, stage in enumerate(...)]`),
raising as soon as one stage is not a dict. -/
def azStageNames : Nat → List Yaml → Except String (List Yaml)
  | _, [] => .ok []
  | i, st :: rest =>
    match yGetD st "name" (.str ("stage_" ++ toString i)) with
    | .error e => .error e
    | .ok nv =>
      match azStageNames (i + 1) rest with
      | .error e => .error e
      | .ok l => .ok (nv :: l)

/-- Loop over a list-valued `dependsOn` of one stage. -/
def azDependsList (names : List Yaml) (i : Nat) (st : Yaml) : List Yaml → List Finding × Option String
  | [] => ([], none)
  | d :: rest =>
    if names.any (fun n => ybeq n d) then azDependsList names i st rest
    else
      match yGetD st "name" (.str ("Stage " ++ toString (i + 1))) with
      | .error e => ([], some e)
      | .ok nv =>
        let (fs, e) := azDependsList names i st rest
        (azInvalidDependsF i (pyStr nv) d :: fs, e)

/-- Per-stage body of rule 7: scalar or list `dependsOn` references to
undeclared stage names. -/
def azDependsStage (names : List Yaml) (i : Nat) (st : Yaml) : List Finding × Option String :=
  match yContains "dependsOn" st with
  | .error e => ([], some e)
  | .ok false => ([], none)
  | .ok true =>
    match yGetItem st "dependsOn" with
    | .error e => ([], some e)
    | .ok (.str d) =>
      if names.any (fun n => ybeq n (.str d)) then ([], none)
      else
        match yGetD st "name" (.str ("Stage " ++ toString (i + 1))) with
        | .error e => ([], some e)
        | .ok nv => ([azInvalidDependsF i (pyStr nv) (.str d)], none)
    | .ok (.seq ds) => azDependsList names i st ds
    | .ok _ => ([], none)

/-- Loop of rule 7 over the enumerated stages. -/
def azCheck7Loop (names : List Yaml) : Nat → List Yaml → ChkOut
  | _, [] => ChkOut.none0
  | i, st :: rest =>
    match azDependsStage names i st with
    | (fs, some e) => ⟨fs, [], some e⟩
    | (fs, none) => ChkOut.consF fs (azCheck7Loop names (i + 1) rest)

/-- Rule 7 of the azure_devops checker: invalid `dependsOn` references. -/
def azCheck7 (p : Yaml) : ChkOut :=
  match yContains "stages" p with
  | .error e => ChkOut.raise e
  | .ok false => ChkOut.none0
  | .ok true =>
    match yGetItem p "stages" with
    | .error e => ChkOut.raise e
    | .ok sv =>
      match yIter sv with
      | .error e => ChkOut.raise e
      | .ok stages =>
        match azStageNames 0 stages with
        | .error e => ChkOut.raise e
        | .ok names => azCheck7Loop names 0 stages

/-- The azure_devops log heuristics (rule 8). -/
def azLogChecks : Option String → ChkOut
  | none => ChkOut.none0
  | some l =>
    if l == "" then ChkOut.none0
    else
      ⟨[],
        (if hasSub l "No such file or directory" then [logFileNotFoundF] else [])
        ++ (if hasSub l "Permission denied" then [logPermissionDeniedF] else [])
        ++ (if hasSub l "Task failed" then [logTaskFailedF] else []),
        none⟩

/-- `_detect_azure_devops_failures` after a successful, truthy load. -/
def detectAzureDoc (p : Yaml) (logs : Option String) : Report :=
  mkReport (chain
    [azCheck1 p, azCheck2 p, azCheck3 p, azCheck4 p, azCheck5 p, azCheck6 p, azCheck7 p,
      azLogChecks logs])

/-- `_detect_azure_devops_failures` on the outcome of `yaml.safe_load`. -/
def detect_azure_devops_failures : Option Yaml → Option String → Report
  | none, _ => parseFailReport
  | some p, logs => if truthy p then detectAzureDoc p logs else loadFailReport

/-- The placeholder jobs section the github_actions patcher inserts. -/
def ghDefaultJobs : Yaml :=
  .map [(.ks "build", .map
    [(.ks "runs-on", .str "ubuntu-latest"),
      (.ks "steps", .seq
        [.map [(.ks "uses", .str "actions/checkout@v3")],
          .map [(.ks "name", .str "Run a one-line script"), (.ks "run", .str "echo Hello, world!")]])])]

/-- The default trigger section the github_actions patcher inserts. -/
def ghDefaultOn : Yaml :=
  .map [(.ks "push", .map [(.ks "branches", .seq [.str "main"])]),
    (.ks "pull_request", .map [(.ks "branches", .seq [.str "main"])])]

/-- The placeholder steps the github_actions patcher inserts. -/
def ghDefaultSteps : Yaml :=
  .seq [.map [(.ks "uses", .str "actions/checkout@v3")],
    .map [(.ks "name", .str "Run a one-line script"), (.ks "run", .str "echo Hello, world!")]]

/-- Write a mutated job object back through `pipeline["jobs"][job_name]`
(the Python mutation is in place; functionally the container chain is
rebuilt along the access path). -/
def yPutJob (p a : Yaml) (jn : YKey) (b2 : Yaml) : Except String Yaml :=
  match ySetK a jn b2 with
  | .error e => .error e
  | .ok a2 => ySet p "jobs" a2

/-- `pipeline["jobs"][job_name][k] = v`. -/
def ySetPathJob (p : Yaml) (jn : YKey) (k : String) (v : Yaml) : Except String Yaml :=
  match yGetItem p "jobs" with
  | .error e => .error e
  | .ok a =>
    match yGetItemK a jn with
    | .error e => .error e
    | .ok b =>
      match ySet b k v with
      | .error e => .error e
      | .ok b2 => yPutJob p a jn b2

/-- One iteration of the github_actions patch loop: dispatch on the
failure's `type` and apply the corresponding mutation. -/
def fixGhF (p : Yaml) (f : Finding) : Except String Yaml :=
  if f.ftype == "missing_jobs" then ySet p "jobs" ghDefaultJobs
  else if f.ftype == "missing_triggers" then ySet p "on" ghDefaultOn
  else if f.ftype == "missing_steps" then
    match f.job with
    | some jn =>
      if keyTruthy jn then
        match yGetM p "jobs" (.map []) with
        | .error e => .error e
        | .ok jd =>
          match yMemVal (keyVal jn) jd with
          | .error e => .error e
          | .ok true => ySetPathJob p jn "steps" ghDefaultSteps
          | .ok false => .ok p
      else .ok p
    | none => .ok p
  else if f.ftype == "invalid_needs" then
    match f.job, f.dependency with
    | some jn, some dep =>
      if keyTruthy jn && truthy dep then
        match yGetM p "jobs" (.map []) with
        | .error e => .error e
        | .ok jd =>
          match yMemVal (keyVal jn) jd with
          | .error e => .error e
          | .ok false => .ok p
          | .ok true =>
            match yGetItem p "jobs" with
            | .error e => .error e
            | .ok a =>
              match yGetItemK a jn with
              | .error e => .error e
              | .ok b =>
                match yContains "needs" b with
                | .error e => .error e
                | .ok false => .ok p
                | .ok true =>
                  match yGetItem b "needs" with
                  | .error e => .error e
                  | .ok (.str _) =>
                    match yDel b "needs" with
                    | .error e => .error e
                    | .ok b2 => yPutJob p a jn b2
                  | .ok (.seq ns) =>
                    let filtered := ns.filter (fun n => !ybeq n dep)
                    match ySet b "needs" (.seq filtered) with
                    | .error e => .error e
                    | .ok b2 =>
                      if filtered.isEmpty then
                        match yDel b2 "needs" with
                        | .error e => .error e
                        | .ok b3 => yPutJob p a jn b3
                      else yPutJob p a jn b2
                  | .ok _ => .ok p
      else .ok p
    | _, _ => .ok p
  else if f.ftype == "missing_runner" then
    match f.job with
    | some jn =>
      if keyTruthy jn then
        match yGetM p "jobs" (.map []) with
        | .error e => .error e
        | .ok jd =>
          match yMemVal (keyVal jn) jd with
          | .error e => .error e
          | .ok true => ySetPathJob p jn "runs-on" (.str "ubuntu-latest")
          | .ok false => .ok p
      else .ok p
    | none => .ok p
  else .ok p

/-- The github_actions patch loop over `failures.get("failures", [])`. -/
def fixLoopGh : Yaml → List Finding → Except String Yaml
  | p, [] => .ok p
  | p, f :: rest =>
    match fixGhF p f with
    | .error e => .error e
    | .ok p2 => fixLoopGh p2 rest

/-- `_fix_github_actions_failures`: load (`none`/falsy gives `None`), apply
the patch loop, and re-serialize; any exception yields `None`.  The
returned document is the one `yaml.dump(pipeline, sort_keys=False)`
serializes. -/
def fix_github_actions_failures : Option Yaml → Report → Option Yaml
  | none, _ => none
  | some p, r => if truthy p then (fixLoopGh p r.failures).toOption else none

/-- The default stages list the gitlab_ci patcher inserts. -/
def glDefaultStages : Yaml := .seq [.str "build", .str "test", .str "deploy"]

/-- The placeholder job the gitlab_ci patcher inserts. -/
def glDefaultBuildJob : Yaml :=
  .map [(.ks "stage", .str "build"), (.ks "script", .seq [.str "echo 'Building...'"])]

/-- One iteration of the gitlab_ci patch loop. -/
def fixGlF (p : Yaml) (f : Finding) : Except String Yaml :=
  if f.ftype == "missing_stages" then ySet p "stages" glDefaultStages
  else if f.ftype == "missing_jobs" then ySet p "build" glDefaultBuildJob
  else if f.ftype == "missing_script" then
    match f.job with
    | some jn =>
      if keyTruthy jn then
        match yMemVal (keyVal jn) p with
        | .error e => .error e
        | .ok false => .ok p
        | .ok true =>
          match yGetItemK p jn with
          | .error e => .error e
          | .ok b =>
            match ySet b "script" (.seq [.str "echo 'Running...'"]) with
            | .error e => .error e
            | .ok b2 => ySetK p jn b2
      else .ok p
    | none => .ok p
  else if f.ftype == "invalid_stage" then
    match f.job, f.stage with
    | some jn, some sval =>
      if keyTruthy jn && truthy sval then
        match yMemVal (keyVal jn) p with
        | .error e => .error e
        | .ok false => .ok p
        | .ok true =>
          match yContains "stages" p with
          | .error e => .error e
          | .ok false => ySet p "stages" glDefaultStages
          | .ok true =>
            match yGetItem p "stages" with
            | .error e => .error e
            | .ok sv =>
              match yMemVal sval sv with
              | .error e => .error e
              | .ok true => .ok p
              | .ok false =>
                match sv with
                | .seq xs => ySet p "stages" (.seq (xs ++ [sval]))
                | _ => .error ("'" ++ typeName sv ++ "' object has no attribute 'append'")
      else .ok p
    | _, _ => .ok p
  else .ok p

/-- The gitlab_ci patch loop. -/
def fixLoopGl : Yaml → List Finding → Except String Yaml
  | p, [] => .ok p
  | p, f :: rest =>
    match fixGlF p f with
    | .error e => .error e
    | .ok p2 => fixLoopGl p2 rest

/-- `_fix_gitlab_ci_failures`. -/
def fix_gitlab_ci_failures : Option Yaml → Report → Option Yaml
  | none, _ => none
  | some p, r => if truthy p then (fixLoopGl p r.failures).toOption else none

/-- The placeholder steps the azure_devops patcher inserts. -/
def azDefaultSteps : Yaml :=
  .seq [.map [(.ks "checkout", .str "self")],
    .map [(.ks "script", .str "echo Hello, world!"), (.ks "displayName", .str "Run a one-line script")]]

/-- The placeholder jobs list the azure_devops patcher inserts. -/
def azDefaultJobList : Yaml :=
  .seq [.map [(.ks "job", .str "build"), (.ks "steps", azDefaultSteps)]]

/-- Write a mutated element back through `pipeline[sec][i]`. -/
def yPutIdx (p a : Yaml) (sec : String) (i : Nat) (b2 : Yaml) : Except String Yaml :=
  match yIdxSet a i b2 with
  | .error e => .error e
  | .ok a2 => ySet p sec a2

/-- One iteration of the azure_devops patch loop. -/
def fixAzF (p : Yaml) (f : Finding) : Except String Yaml :=
  if f.ftype == "missing_triggers" then ySet p "trigger" (.seq [.str "main"])
  else if f.ftype == "missing_pool" then ySet p "pool" (.map [(.ks "vmImage", .str "ubuntu-latest")])
  else if f.ftype == "missing_pipeline_structure" then
    match yContains "stages" p with
    | .error e => .error e
    | .ok true => .ok p
    | .ok false =>
      match yContains "jobs" p with
      | .error e => .error e
      | .ok true => .ok p
      | .ok false =>
        match yContains "steps" p with
        | .error e => .error e
        | .ok true => .ok p
        | .ok false => ySet p "jobs" azDefaultJobList
  else if f.ftype == "missing_steps" then
    match f.jobIndex with
    | some i =>
      match yGetM p "jobs" (.seq []) with
      | .error e => .error e
      | .ok jd =>
        match yLen jd with
        | .error e => .error e
        | .ok n =>
          if i < n then
            match yGetItem p "jobs" with
            | .error e => .error e
            | .ok a =>
              match yIdxGet a i with
              | .error e => .error e
              | .ok b =>
                match ySet b "steps" azDefaultSteps with
                | .error e => .error e
                | .ok b2 => yPutIdx p a "jobs" i b2
          else .ok p
    | none => .ok p
  else if f.ftype == "missing_jobs" then
    match f.stageIndex with
    | some i =>
      match yGetM p "stages" (.seq []) with
      | .error e => .error e
      | .ok sd =>
        match yLen sd with
        | .error e => .error e
        | .ok n =>
          if i < n then
            match yGetItem p "stages" with
            | .error e => .error e
            | .ok a =>
              match yIdxGet a i with
              | .error e => .error e
              | .ok st =>
                match ySet st "jobs" azDefaultJobList with
                | .error e => .error e
                | .ok st2 => yPutIdx p a "stages" i st2
          else .ok p
    | none => .ok p
  else if f.ftype == "invalid_depends_on" then
    match f.stageIndex, f.dependency with
    | some i, some dep =>
      if truthy dep then
        match yGetM p "stages" (.seq []) with
        | .error e => .error e
        | .ok sd =>
          match yLen sd with
          | .error e => .error e
          | .ok n =>
            if i < n then
              match yGetItem p "stages" with
              | .error e => .error e
              | .ok a =>
                match yIdxGet a i with
                | .error e => .error e
                | .ok st =>
                  match yContains "dependsOn" st with
                  | .error e => .error e
                  | .ok false => .ok p
                  | .ok true =>
                    match yGetItem st "dependsOn" with
                    | .error e => .error e
                    | .ok (.str _) =>
                      match yDel st "dependsOn" with
                      | .error e => .error e
                      | .ok st2 => yPutIdx p a "stages" i st2
                    | .ok (.seq ds) =>
                      let filtered := ds.filter (fun d => !ybeq d dep)
                      match ySet st "dependsOn" (.seq filtered) with
                      | .error e => .error e
                      | .ok st2 =>
                        if filtered.isEmpty then
                          match yDel st2 "dependsOn" with
                          | .error e => .error e
                          | .ok st3 => yPutIdx p a "stages" i st3
                        else yPutIdx p a "stages" i st2
                    | .ok _ => .ok p
            else .ok p
      else .ok p
    | _, _ => .ok p
  else .ok p

/-- The azure_devops patch loop. -/
def fixLoopAz : Yaml → List Finding → Except String Yaml
  | p, [] => .ok p
  | p, f :: rest =>
    match fixAzF p f with
    | .error e => .error e
    | .ok p2 => fixLoopAz p2 rest

/-- `_fix_azure_devops_failures`. -/
def fix_azure_devops_failures : Option Yaml → Report → Option Yaml
  | none, _ => none
  | some p, r => if truthy p then (fixLoopAz p r.failures).toOption else none

/-- The skeleton the jenkins patcher substitutes for `missing_pipeline`. -/
def jkSkeleton : String :=
  "pipeline \x7b\n    agent any\n    stages \x7b\n        stage('Build') \x7b\n            steps \x7b\n                echo 'Building...'\n            \x7d\n        \x7d\n    \x7d\n\x7d"

/-- The insertion for `missing_stages`. -/
def jkStagesIns : String :=
  "\n    stages \x7b\n        stage('Build') \x7b\n            steps \x7b\n                echo 'Building...'\n            \x7d\n        \x7d\n    \x7d"

/-- The insertion for `missing_stage`. -/
def jkStageIns : String :=
  "\n        stage('Build') \x7b\n            steps \x7b\n                echo 'Building...'\n            \x7d\n        \x7d"

/-- The insertion for `missing_steps`. -/
def jkStepsIns : String :=
  "\n            steps \x7b\n                echo 'Running...'\n            \x7d"

/-- `re.sub` with a self-capturing pattern and an insertion after group 1. -/
def reSubIns (m : List Char → Option (List Char)) (ins : String) (t : String) : String :=
  String.mk (subInsAfter m ins.toList (t.length + 1) t.toList)

/-- One iteration of the jenkins patch loop (textual substitutions). -/
def fixJkF (t : String) (f : Finding) : Except String String :=
  if f.ftype == "missing_pipeline" then .ok jkSkeleton
  else if f.ftype == "missing_agent" then .ok (reSubIns mPipelineBrace "\n    agent any" t)
  else if f.ftype == "missing_stages" then .ok (reSubIns mPipelineBody jkStagesIns t)
  else if f.ftype == "missing_stage" then .ok (reSubIns mStagesBody jkStageIns t)
  else if f.ftype == "missing_steps" then
    match f.stage with
    | some sv =>
      if truthy sv then
        match sv with
        | .str sn =>
          .ok (pyReplace (reSubIns mStageEmptyQuote jkStepsIns (pyReplace t sn "\x7b0\x7d")) "\x7b0\x7d" sn)
        | _ => .error "replace() argument 1 must be str"
      else .ok t
    | none => .ok t
  else .ok t

/-- The jenkins patch loop. -/
def fixLoopJk : String → List Finding → Except String String
  | t, [] => .ok t
  | t, f :: rest =>
    match fixJkF t f with
    | .error e => .error e
    | .ok t2 => fixLoopJk t2 rest

/-- `_fix_jenkins_failures`. -/
def fix_jenkins_failures (t : String) (r : Report) : Option String :=
  (fixLoopJk t r.failures).toOption

/-- Follow a path of string keys through nested mappings. -/
def getPath : Yaml → List String → Option Yaml
  | v, [] => some v
  | .map kvs, k :: rest =>
    match lookupY kvs (.ks k) with
    | some v => getPath v rest
    | none => none
  | _, _ :: _ => none

/-- The PyYAML load of the C1 scenario text
`"on:\n  push: \x7b\x7d\njobs:\n  build:\n    steps:\n      - run: echo hi"`.
The unquoted plain scalar `on` is a YAML 1.1 boolean, so PyYAML loads the
first key as the boolean `true`, not the string `"on"`. -/
def c1doc : Yaml :=
  .map [(.kb true, .map [(.ks "push", .map [])]),
    (.ks "jobs", .map [(.ks "build", .map
      [(.ks "steps", .seq [.map [(.ks "run", .str "echo hi")]])])])]

/-- The report github_actions detect produces for `c1doc`. -/
def c1report : Report :=
  ⟨"success", [ghMissingTriggersF, ghMissingRunnerF (.ks "build")], [], none⟩

/-- The document github_actions fix produces for `c1doc` with `c1report`
(what `yaml.dump` then serializes). -/
def c1fixed : Yaml :=
  .map [(.kb true, .map [(.ks "push", .map [])]),
    (.ks "jobs", .map [(.ks "build", .map
      [(.ks "steps", .seq [.map [(.ks "run", .str "echo hi")]]),
        (.ks "runs-on", .str "ubuntu-latest")])]),
    (.ks "on", ghDefaultOn)]

/-- A Jenkinsfile whose stage `Build` has no `steps` block. -/
def jk2text : String :=
  "pipeline \x7b\n  agent any\n  stages \x7b\n    stage('Build') \x7b\n      echo 'hi'\n    \x7d\n  \x7d\n\x7d"

/-- The report jenkins detect produces for `jk2text`. -/
def jk2report : Report := ⟨"success", [jkMissingStepsF "Build"], [], none⟩

def c5kvs : List (YKey × Yaml) := [(.ks "variables", .map [(.ks "script", .str "x")])]

def c5doc : Yaml := .map c5kvs

def c6kvs : List (YKey × Yaml) := [(.ks "job1", .map [(.ks "script", .str "$FOO")])]

def c6doc : Yaml := .map c6kvs

def c6vkvs : List (YKey × Yaml) :=
  [(.ks "variables", .map [(.ks "OTHER", .str "1")]),
    (.ks "job1", .map [(.ks "script", .str "$FOO")])]

def c8step : Yaml := .map [(.ks "run", .str "echo $\x7b\x7b secrets.TOK \x7d\x7d")]

def c8jobs : List (YKey × Yaml) := [(.ks "b", .map [(.ks "steps", .seq [c8step])])]

def c8kvs : List (YKey × Yaml) := [(.kb true, .map [(.ks "push", .map [])]), (.ks "jobs", .map c8jobs)]

def c7jk : List (YKey × Yaml) := [(.ks "needs", .seq [.str "x", .str "y"]), (.ks "other", .int 1)]

def c7jobs : List (YKey × Yaml) := [(.ks "b", .map c7jk), (.ks "y", .map [])]

def c7top : List (YKey × Yaml) := [(.ks "jobs", .map c7jobs)]

def c7sk : List (YKey × Yaml) := [(.ks "name", .str "s0"), (.ks "dependsOn", .seq [.str "x", .str "y"])]

def c7atop : List (YKey × Yaml) := [(.ks "stages", .seq [.map c7sk])]

theorem mkReport_failures (o : ChkOut) : (mkReport o).failures = o.fs := by
  cases h : o.err <;> simp [mkReport, h]

theorem mkReport_warnings (o : ChkOut) : (mkReport o).warnings = o.ws := by
  cases h : o.err <;> simp [mkReport, h]

theorem chain_cons_some {o : ChkOut} {l : List ChkOut} {e : String} (h : o.err = some e) :
    chain (o :: l) = ⟨o.fs, o.ws, some e⟩ := by
  simp [chain, h]

theorem chain_cons_none {o : ChkOut} {l : List ChkOut} (h : o.err = none) :
    chain (o :: l) = ⟨o.fs ++ (chain l).fs, o.ws ++ (chain l).ws, (chain l).err⟩ := by
  simp [chain, h]

theorem mem_chain_head_fs {f : Finding} {o : ChkOut} {l : List ChkOut} (h : f ∈ o.fs) :
    f ∈ (chain (o :: l)).fs := by
  cases he : o.err with
  | none => rw [chain_cons_none he]; exact List.mem_append_left _ h
  | some e => rw [chain_cons_some he]; exact h

theorem mem_chain_tail_fs {f : Finding} {o : ChkOut} {l : List ChkOut}
    (he : o.err = none) (h : f ∈ (chain l).fs) : f ∈ (chain (o :: l)).fs := by
  rw [chain_cons_none he]; exact List.mem_append_right _ h

theorem mem_chain_head_ws {w : Finding} {o : ChkOut} {l : List ChkOut} (h : w ∈ o.ws) :
    w ∈ (chain (o :: l)).ws := by
  cases he : o.err with
  | none => rw [chain_cons_none he]; exact List.mem_append_left _ h
  | some e => rw [chain_cons_some he]; exact h

theorem mem_chain_tail_ws {w : Finding} {o : ChkOut} {l : List ChkOut}
    (he : o.err = none) (h : w ∈ (chain l).ws) : w ∈ (chain (o :: l)).ws := by
  rw [chain_cons_none he]; exact List.mem_append_right _ h

theorem mem_chain_elim_fs {f : Finding} : ∀ {l : List ChkOut}, f ∈ (chain l).fs → ∃ o ∈ l, f ∈ o.fs := by
  intro l
  induction l with
  | nil => intro h; simp [chain, ChkOut.none0] at h
  | cons o rest ih =>
    intro h
    cases he : o.err with
    | some e =>
      rw [chain_cons_some he] at h
      exact ⟨o, List.mem_cons_self o rest, h⟩
    | none =>
      rw [chain_cons_none he] at h
      rcases List.mem_append.mp h with h1 | h2
      · exact ⟨o, List.mem_cons_self o rest, h1⟩
      · obtain ⟨o2, ho2, hf⟩ := ih h2
        exact ⟨o2, List.mem_cons_of_mem _ ho2, hf⟩

theorem mem_chain_elim_ws {f : Finding} : ∀ {l : List ChkOut}, f ∈ (chain l).ws → ∃ o ∈ l, f ∈ o.ws := by
  intro l
  induction l with
  | nil => intro h; simp [chain, ChkOut.none0] at h
  | cons o rest ih =>
    intro h
    cases he : o.err with
    | some e =>
      rw [chain_cons_some he] at h
      exact ⟨o, List.mem_cons_self o rest, h⟩
    | none =>
      rw [chain_cons_none he] at h
      rcases List.mem_append.mp h with h1 | h2
      · exact ⟨o, List.mem_cons_self o rest, h1⟩
      · obtain ⟨o2, ho2, hf⟩ := ih h2
        exact ⟨o2, List.mem_cons_of_mem _ ho2, hf⟩

theorem keyMatchStr (k : YKey) (s : String) :
    ybeq (keyVal k) (.str s) = decide (k = YKey.ks s) := by
  cases k with
  | ks t =>
    simp only [keyVal, ybeq, YKey.ks.injEq]
    by_cases h : t = s <;> simp [h]
  | kb b => simp [keyVal, ybeq]

theorem yContains_map (needle : String) (kvs : List (YKey × Yaml)) :
    yContains needle (.map kvs) = .ok (hasKeyY kvs (.ks needle)) := by
  simp [yContains, yMemVal, unhashable, hasKeyY, keyMatchStr]

theorem hasKeyY_of_lookup {kvs : List (YKey × Yaml)} {k : YKey} {v : Yaml}
    (h : lookupY kvs k = some v) : hasKeyY kvs k = true := by
  induction kvs with
  | nil => simp [lookupY] at h
  | cons kv rest ih =>
    obtain ⟨k0, v0⟩ := kv
    by_cases hk : k0 = k
    · simp [hasKeyY, hk]
    · rw [lookupY, if_neg hk] at h
      simp [hasKeyY, hk]
      have := ih h
      simpa [hasKeyY] using this

theorem lookup_of_hasKeyY {kvs : List (YKey × Yaml)} {k : YKey}
    (h : hasKeyY kvs k = true) : ∃ v, lookupY kvs k = some v := by
  induction kvs with
  | nil => simp [hasKeyY] at h
  | cons kv rest ih =>
    obtain ⟨k0, v0⟩ := kv
    by_cases hk : k0 = k
    · exact ⟨v0, by rw [lookupY, if_pos hk]⟩
    · simp only [hasKeyY, List.any_cons] at h
      rcases Bool.or_eq_true_iff.mp h with h1 | h2
      · exact absurd (of_decide_eq_true h1) hk
      · obtain ⟨v, hv⟩ := ih h2
        exact ⟨v, by rw [lookupY, if_neg hk]; exact hv⟩

/-- C9: for every input text and every optional log text, jenkins detect is
total and returns a report with `status = "success"` and no load-error
message — the Jenkins path never produces a load error and never raises;
absent constructs appear only in the failures/warnings lists. -/
theorem C9_thm : ∀ (text : String) (logs : Option String),
    (detect_jenkins_failures text logs).status = "success" ∧
    (detect_jenkins_failures text logs).message = none :=
  fun _ _ => ⟨rfl, rfl⟩

/-- C10: for the structured kinds, when the report's failures list is empty
(whatever the warnings list contains) and the document is truthy, the patch
loop leaves the document untouched and fix re-serializes it whole: parsing
the dumped output yields exactly the document the input parsed to. -/
theorem C10_thm (p : Yaml) (r : Report) (hp : truthy p = true) (hr : r.failures = []) :
    fix_github_actions_failures (some p) r = some p ∧
    fix_gitlab_ci_failures (some p) r = some p ∧
    fix_azure_devops_failures (some p) r = some p := by
  refine ⟨?_, ?_, ?_⟩ <;>
    simp [fix_github_actions_failures, fix_gitlab_ci_failures, fix_azure_devops_failures,
      hp, hr, fixLoopGh, fixLoopGl, fixLoopAz, Except.toOption]

/-- C10 witness: the round-trip fact at a concrete one-entry document with a
non-empty warnings list. -/
theorem C10_witness :
    fix_github_actions_failures (some (.map [(.ks "a", .null)]))
        ⟨"success", [], [glMissingStagesF], none⟩ = some (.map [(.ks "a", .null)]) ∧
    fix_gitlab_ci_failures (some (.map [(.ks "a", .null)]))
        ⟨"success", [], [glMissingStagesF], none⟩ = some (.map [(.ks "a", .null)]) ∧
    fix_azure_devops_failures (some (.map [(.ks "a", .null)]))
        ⟨"success", [], [glMissingStagesF], none⟩ = some (.map [(.ks "a", .null)]) :=
  C10_thm _ _ rfl rfl

/-- C3 (amended): for the structured kinds, whenever detect returns status
`"error"` because the text failed to parse or parsed to a falsy document,
the failures and warnings lists are both empty.  (When an exception occurs
mid-checking, findings collected before the raise are returned together with
the error status — see the counterexample.) -/
theorem C3_amended_thm (logs : Option String) (p : Yaml) (hp : truthy p = false) :
    ((detect_github_actions_failures none logs).status = "error"
      ∧ (detect_github_actions_failures none logs).failures = []
      ∧ (detect_github_actions_failures none logs).warnings = [])
    ∧ ((detect_github_actions_failures (some p) logs).status = "error"
      ∧ (detect_github_actions_failures (some p) logs).failures = []
      ∧ (detect_github_actions_failures (some p) logs).warnings = [])
    ∧ ((detect_gitlab_ci_failures none logs).status = "error"
      ∧ (detect_gitlab_ci_failures none logs).failures = []
      ∧ (detect_gitlab_ci_failures none logs).warnings = [])
    ∧ ((detect_gitlab_ci_failures (some p) logs).status = "error"
      ∧ (detect_gitlab_ci_failures (some p) logs).failures = []
      ∧ (detect_gitlab_ci_failures (some p) logs).warnings = [])
    ∧ ((detect_azure_devops_failures none logs).status = "error"
      ∧ (detect_azure_devops_failures none logs).failures = []
      ∧ (detect_azure_devops_failures none logs).warnings = [])
    ∧ ((detect_azure_devops_failures (some p) logs).status = "error"
      ∧ (detect_azure_devops_failures (some p) logs).failures = []
      ∧ (detect_azure_devops_failures (some p) logs).warnings = []) := by
  simp [detect_github_actions_failures, detect_gitlab_ci_failures, detect_azure_devops_failures,
    hp, parseFailReport, loadFailReport]

/-- C3 witness: the empty-list error report at the concrete falsy document
`null`. -/
theorem C3_amended_witness :
    truthy Yaml.null = false ∧
    (detect_gitlab_ci_failures (some Yaml.null) none).status = "error" ∧
    (detect_gitlab_ci_failures (some Yaml.null) none).failures = [] ∧
    (detect_gitlab_ci_failures (some Yaml.null) none).warnings = [] :=
  ⟨rfl, (C3_amended_thm none Yaml.null rfl).2.2.2.1⟩

/-- C4 (amended): for every structured kind, if the input text fails to
parse or parses to a falsy (null/empty) document, detect returns a report
with status `"error"` and a message, and fix on the same input returns
`None`.  (A truthy non-mapping top level does not generally produce an
error — see the counterexample.) -/
theorem C4_amended_thm (logs : Option String) (p : Yaml) (r : Report) (hp : truthy p = false) :
    ((detect_github_actions_failures (some p) logs).status = "error"
      ∧ (detect_github_actions_failures (some p) logs).message.isSome = true
      ∧ fix_github_actions_failures (some p) r = none
      ∧ fix_github_actions_failures none r = none)
    ∧ ((detect_gitlab_ci_failures (some p) logs).status = "error"
      ∧ (detect_gitlab_ci_failures (some p) logs).message.isSome = true
      ∧ fix_gitlab_ci_failures (some p) r = none
      ∧ fix_gitlab_ci_failures none r = none)
    ∧ ((detect_azure_devops_failures (some p) logs).status = "error"
      ∧ (detect_azure_devops_failures (some p) logs).message.isSome = true
      ∧ fix_azure_devops_failures (some p) r = none
      ∧ fix_azure_devops_failures none r = none) := by
  simp [detect_github_actions_failures, detect_gitlab_ci_failures, detect_azure_devops_failures,
    fix_github_actions_failures, fix_gitlab_ci_failures, fix_azure_devops_failures,
    hp, loadFailReport]

/-- C4 witness: the error report and `None` fix at the concrete falsy
document that is an empty mapping. -/
theorem C4_amended_witness :
    truthy (Yaml.map []) = false ∧
    (detect_github_actions_failures (some (Yaml.map [])) none).status = "error" ∧
    fix_github_actions_failures (some (Yaml.map [])) ⟨"success", [], [], none⟩ = none :=
  ⟨rfl, (C4_amended_thm none (Yaml.map []) ⟨"success", [], [], none⟩ rfl).1.1,
    (C4_amended_thm none (Yaml.map []) ⟨"success", [], [], none⟩ rfl).1.2.2.1⟩

theorem glCheck1_fs (p : Yaml) : (glCheck1 p).fs = [] := by
  unfold glCheck1
  (repeat' split) <;> rfl

theorem glCheck1_err_map (kvs : List (YKey × Yaml)) : (glCheck1 (.map kvs)).err = none := by
  unfold glCheck1
  rw [yContains_map]
  cases hasKeyY kvs (.ks "stages") <;> rfl

theorem glCheck2_map (kvs : List (YKey × Yaml)) :
    glCheck2 (.map kvs) =
      if (kvs.filter (fun kv => isJobLike kv.2)).length == 0 then ⟨[glMissingJobsF], [], none⟩
      else ChkOut.none0 := by
  simp [glCheck2, yItems]

theorem glScriptEntry_types {k : YKey} {v : Yaml} {f : Finding}
    (h : f ∈ glScriptEntry k v) : f.ftype = "missing_script" := by
  unfold glScriptEntry at h
  split at h
  · split at h
    · simp at h; subst h; rfl
    · simp at h
  · simp at h

theorem glCheck3_types {p : Yaml} {f : Finding} (h : f ∈ (glCheck3 p).fs) :
    f.ftype = "missing_script" := by
  unfold glCheck3 at h
  split at h
  · simp [ChkOut.raise] at h
  · simp at h
    obtain ⟨k, v, _, hf⟩ := h
    exact glScriptEntry_types hf

theorem glCheck4_fs (p : Yaml) : (glCheck4 p).fs = [] := by
  unfold glCheck4
  (repeat' split) <;> rfl

theorem glStageEntry_types {selems : List Yaml} {k : YKey} {v : Yaml} {f : Finding}
    (h : f ∈ (glStageEntry selems k v).1) : f.ftype = "invalid_stage" := by
  unfold glStageEntry at h
  (repeat' split at h) <;> simp at h
  subst h; rfl

theorem glCheck5Loop_types {selems : List Yaml} {f : Finding} :
    ∀ {l : List (YKey × Yaml)}, f ∈ (glCheck5Loop selems l).fs → f.ftype = "invalid_stage" := by
  intro l
  induction l with
  | nil => intro h; simp [glCheck5Loop, ChkOut.none0] at h
  | cons kv rest ih =>
    intro h
    obtain ⟨k, v⟩ := kv
    rw [glCheck5Loop] at h
    split at h
    · next fs e heq =>
      have : f ∈ (glStageEntry selems k v).1 := by rw [heq]; exact h
      exact glStageEntry_types this
    · next fs heq =>
      simp [ChkOut.consF] at h
      rcases h with h1 | h2
      · have : f ∈ (glStageEntry selems k v).1 := by rw [heq]; exact h1
        exact glStageEntry_types this
      · exact ih h2

theorem glCheck5_types {p : Yaml} {f : Finding} (h : f ∈ (glCheck5 p).fs) :
    f.ftype = "invalid_stage" := by
  unfold glCheck5 at h
  (repeat' split at h) <;> first
    | (simp [ChkOut.raise, ChkOut.none0] at h)
    | exact glCheck5Loop_types h

theorem glLogChecks_fs (logs : Option String) : (glLogChecks logs).fs = [] := by
  unfold glLogChecks
  (repeat' split) <;> rfl

/-- C5: counterexample.  A pipeline whose only entry is the reserved key
`variables`, mapped to a mapping containing `script`, has zero non-reserved
job-like entries, yet detect emits no `missing_jobs` failure: the code's
job count does not exclude the reserved keys. -/
theorem C5_counterexample :
    ((c5kvs.filter (fun kv => !reservedGl kv.1 && isJobLike kv.2)).length = 0)
    ∧ (detect_gitlab_ci_failures (some c5doc) none).failures = []
    ∧ (detect_gitlab_ci_failures (some c5doc) none).status = "success" :=
  ⟨rfl, rfl, rfl⟩

/-- C5 (amended): for a gitlab_ci pipeline that parses to a (non-empty)
mapping, detect emits the `missing_jobs` failure exactly when zero top-level
entries — reserved keys included — are mappings containing `script` or
`extends`. -/
theorem C5_amended_thm (kvs : List (YKey × Yaml)) (logs : Option String) (h : kvs ≠ []) :
    glMissingJobsF ∈ (detect_gitlab_ci_failures (some (.map kvs)) logs).failures
      ↔ (kvs.filter (fun kv => isJobLike kv.2)).length = 0 := by
  have htr : truthy (.map kvs) = true := by simp [truthy, h]
  have hdet : detect_gitlab_ci_failures (some (.map kvs)) logs = detectGitlabDoc (.map kvs) logs := by
    simp [detect_gitlab_ci_failures, htr]
  rw [hdet]
  have hfail : (detectGitlabDoc (.map kvs) logs).failures =
      (chain [glCheck1 (.map kvs), glCheck2 (.map kvs), glCheck3 (.map kvs),
        glCheck4 (.map kvs), glCheck5 (.map kvs), glLogChecks logs]).fs := mkReport_failures _
  rw [hfail]
  constructor
  · intro hmem
    obtain ⟨o, ho, hfo⟩ := mem_chain_elim_fs hmem
    simp only [List.mem_cons, List.mem_singleton, List.not_mem_nil, or_false] at ho
    rcases ho with ho | ho | ho | ho | ho | ho <;> subst ho
    · rw [glCheck1_fs] at hfo; simp at hfo
    · rw [glCheck2_map] at hfo
      by_cases hc : ((kvs.filter (fun kv => isJobLike kv.2)).length == 0) = true
      · exact beq_iff_eq.mp hc
      · rw [if_neg hc] at hfo; simp [ChkOut.none0] at hfo
    · have := glCheck3_types hfo; simp [glMissingJobsF] at this
    · rw [glCheck4_fs] at hfo; simp at hfo
    · have := glCheck5_types hfo; simp [glMissingJobsF] at this
    · rw [glLogChecks_fs] at hfo; simp at hfo
  · intro hc
    apply mem_chain_tail_fs (glCheck1_err_map kvs)
    apply mem_chain_head_fs
    rw [glCheck2_map, if_pos (by simpa using hc)]
    simp

/-- C5 witness: the `missing_jobs` failure fires on a concrete one-entry
mapping with no job-like entry. -/
theorem C5_amended_witness :
    glMissingJobsF ∈ (detect_gitlab_ci_failures (some (.map [(.ks "a", .str "b")])) none).failures :=
  (C5_amended_thm [(.ks "a", .str "b")] none (by simp)).mpr rfl

theorem mem_ite_nil {f : Finding} {c : Prop} [Decidable c] {l : List Finding}
    (h : f ∈ (if c then l else [])) : f ∈ l := by
  split at h
  · exact h
  · simp at h

theorem glCheck1_ws_types {p : Yaml} {f : Finding} (h : f ∈ (glCheck1 p).ws) :
    f.ftype = "missing_stages" := by
  unfold glCheck1 at h
  (repeat' split at h) <;> simp [ChkOut.raise, ChkOut.none0] at h
  subst h; rfl

theorem glCheck2_ws (p : Yaml) : (glCheck2 p).ws = [] := by
  unfold glCheck2
  (repeat' split) <;> rfl

theorem glCheck2_err_map (kvs : List (YKey × Yaml)) : (glCheck2 (.map kvs)).err = none := by
  rw [glCheck2_map]
  split <;> rfl

theorem glCheck3_ws (p : Yaml) : (glCheck3 p).ws = [] := by
  unfold glCheck3
  (repeat' split) <;> rfl

theorem glCheck3_map (kvs : List (YKey × Yaml)) :
    glCheck3 (.map kvs) = ⟨kvs.flatMap (fun kv => glScriptEntry kv.1 kv.2), [], none⟩ := by
  simp [glCheck3, yItems]

theorem glCheck4_novars (kvs : List (YKey × Yaml))
    (h : hasKeyY kvs (.ks "variables") = false) : glCheck4 (.map kvs) = ChkOut.none0 := by
  unfold glCheck4
  rw [yContains_map, h]

theorem glCheck4_map_vars (kvs vkvs : List (YKey × Yaml))
    (hv : lookupY kvs (.ks "variables") = some (.map vkvs)) :
    glCheck4 (.map kvs) =
      ⟨[], kvs.flatMap (fun kv => glVarEntry (vkvs.map Prod.fst) kv.1 kv.2), none⟩ := by
  unfold glCheck4
  rw [yContains_map, hasKeyY_of_lookup hv]
  simp [yGetItem, yGetItemK, hv, yKeys, yItems]

theorem glCheck5Loop_ws (selems : List Yaml) : ∀ (l : List (YKey × Yaml)), (glCheck5Loop selems l).ws = [] := by
  intro l
  induction l with
  | nil => rfl
  | cons kv rest ih =>
    obtain ⟨k, v⟩ := kv
    rw [glCheck5Loop]
    split
    · rfl
    · simp [ChkOut.consF, ih]

theorem glCheck5_ws (p : Yaml) : (glCheck5 p).ws = [] := by
  unfold glCheck5
  (repeat' split) <;> first
    | rfl
    | exact glCheck5Loop_ws _ _

theorem glLog_ws_not_undef {logs : Option String} {f : Finding}
    (h : f ∈ (glLogChecks logs).ws) : f.ftype ≠ "undefined_variable" := by
  unfold glLogChecks at h
  (repeat' split at h) <;> (try simp [ChkOut.none0] at h) <;>
    (try rcases h with h | h) <;> (try rcases h with h | h) <;> (try subst h) <;> (try decide)

/-- C6: counterexample.  A pipeline with no top-level `variables` mapping
whose job body contains the token `$FOO` (not `CI_`-prefixed) produces no
`undefined_variable` warning at all: the whole scan is guarded by
`if "variables" in pipeline`. -/
theorem C6_counterexample :
    upperVarRefs (pyStr (Yaml.map [(.ks "script", .str "$FOO")])) = ["FOO"]
    ∧ startsW "FOO" "CI_" = false
    ∧ hasKeyY c6kvs (.ks "variables") = false
    ∧ (detect_gitlab_ci_failures (some c6doc) none).warnings.map Finding.ftype = ["missing_stages"] :=
  ⟨rfl, rfl, rfl, rfl⟩

/-- C6 (amended): the gitlab_ci undefined-variable scan runs only when a
top-level `variables` mapping is declared.  Without a `variables` key no
`undefined_variable` warning is ever emitted; when `variables` is a mapping,
every `$UPPER_CASE` token of a non-reserved mapping entry's textual
representation whose name is not a key of `variables` and does not start
with `CI_` yields an `undefined_variable` warning naming that job and
variable. -/
theorem C6_amended_thm :
    (∀ (kvs : List (YKey × Yaml)) (logs : Option String), kvs ≠ [] →
      hasKeyY kvs (.ks "variables") = false →
      ∀ f ∈ (detect_gitlab_ci_failures (some (.map kvs)) logs).warnings,
        f.ftype ≠ "undefined_variable")
    ∧ (∀ (kvs vkvs ekvs : List (YKey × Yaml)) (logs : Option String) (k : YKey) (name : String),
      lookupY kvs (.ks "variables") = some (.map vkvs) →
      (k, Yaml.map ekvs) ∈ kvs →
      reservedGl k = false →
      name ∈ upperVarRefs (pyStr (Yaml.map ekvs)) →
      (vkvs.map Prod.fst).contains (.ks name) = false →
      startsW name "CI_" = false →
      glUndefVarF k name ∈ (detect_gitlab_ci_failures (some (.map kvs)) logs).warnings) := by
  constructor
  · intro kvs logs hne hnv f hf hundef
    have htr : truthy (.map kvs) = true := by simp [truthy, hne]
    rw [show detect_gitlab_ci_failures (some (.map kvs)) logs = detectGitlabDoc (.map kvs) logs
      from by simp [detect_gitlab_ci_failures, htr]] at hf
    rw [show (detectGitlabDoc (.map kvs) logs).warnings =
        (chain [glCheck1 (.map kvs), glCheck2 (.map kvs), glCheck3 (.map kvs),
          glCheck4 (.map kvs), glCheck5 (.map kvs), glLogChecks logs]).ws
      from mkReport_warnings _] at hf
    obtain ⟨o, ho, hfo⟩ := mem_chain_elim_ws hf
    simp only [List.mem_cons, List.mem_singleton, List.not_mem_nil, or_false] at ho
    rcases ho with ho | ho | ho | ho | ho | ho <;> subst ho
    · rw [glCheck1_ws_types hfo] at hundef; simp at hundef
    · rw [glCheck2_ws] at hfo; simp at hfo
    · rw [glCheck3_ws] at hfo; simp at hfo
    · rw [glCheck4_novars kvs hnv] at hfo; simp [ChkOut.none0] at hfo
    · rw [glCheck5_ws] at hfo; simp at hfo
    · exact glLog_ws_not_undef hfo hundef
  · intro kvs vkvs ekvs logs k name hv hentry hres hname hnd hci
    have hne : kvs ≠ [] := by
      intro hk
      rw [hk] at hentry
      simp at hentry
    have htr : truthy (.map kvs) = true := by simp [truthy, hne]
    rw [show detect_gitlab_ci_failures (some (.map kvs)) logs = detectGitlabDoc (.map kvs) logs
      from by simp [detect_gitlab_ci_failures, htr]]
    rw [show (detectGitlabDoc (.map kvs) logs).warnings =
        (chain [glCheck1 (.map kvs), glCheck2 (.map kvs), glCheck3 (.map kvs),
          glCheck4 (.map kvs), glCheck5 (.map kvs), glLogChecks logs]).ws
      from mkReport_warnings _]
    apply mem_chain_tail_ws (glCheck1_err_map kvs)
    apply mem_chain_tail_ws (glCheck2_err_map kvs)
    apply mem_chain_tail_ws (by rw [glCheck3_map])
    apply mem_chain_head_ws
    rw [glCheck4_map_vars kvs vkvs hv]
    show glUndefVarF k name ∈ kvs.flatMap (fun kv => glVarEntry (vkvs.map Prod.fst) kv.1 kv.2)
    apply List.mem_flatMap.mpr
    refine ⟨(k, Yaml.map ekvs), hentry, ?_⟩
    unfold glVarEntry
    rw [show isMapY (Yaml.map ekvs) = true from rfl, hres]
    simp only [Bool.not_false, Bool.and_true, if_true]
    apply List.mem_flatMap.mpr
    refine ⟨name, hname, ?_⟩
    rw [hnd, hci]
    simp

/-- C6 witness: both halves at concrete pipelines — the warning fires with
a declared `variables` mapping, and no warning of that kind exists without
one. -/
theorem C6_amended_witness :
    glUndefVarF (.ks "job1") "FOO" ∈ (detect_gitlab_ci_failures (some (.map c6vkvs)) none).warnings
    ∧ glMissingStagesF.ftype ≠ "undefined_variable" :=
  ⟨C6_amended_thm.2 c6vkvs [(.ks "OTHER", .str "1")] [(.ks "script", .str "$FOO")] none
      (.ks "job1") "FOO" rfl (List.mem_cons_of_mem _ (List.Mem.head _)) rfl (List.Mem.head _) rfl rfl,
    C6_amended_thm.1 c6kvs none (by simp [c6kvs]) rfl glMissingStagesF (List.Mem.head _)⟩

theorem ghCheck1_err_map (kvs : List (YKey × Yaml)) : (ghCheck1 (.map kvs)).err = none := by
  unfold ghCheck1
  rw [yContains_map]
  cases hasKeyY kvs (.ks "jobs") <;> rfl

theorem ghCheck2_err_map (kvs : List (YKey × Yaml)) : (ghCheck2 (.map kvs)).err = none := by
  unfold ghCheck2
  rw [yContains_map]
  cases hasKeyY kvs (.ks "on") <;> rfl

theorem ghCheck3_eval (kvs jobsKvs : List (YKey × Yaml))
    (hjobs : lookupY kvs (.ks "jobs") = some (.map jobsKvs)) :
    ghCheck3 (.map kvs) = ghCheck3Loop jobsKvs := by
  unfold ghCheck3
  rw [yContains_map, hasKeyY_of_lookup hjobs]
  simp [yGetItem, yGetItemK, hjobs, yItems]

theorem ghCheck3Loop_err (l : List (YKey × Yaml))
    (h : ∀ x ∈ l, ∃ fs, ghJobMissingSteps x.1 x.2 = .ok fs) :
    (ghCheck3Loop l).err = none := by
  induction l with
  | nil => rfl
  | cons x rest ih =>
    obtain ⟨jn, j⟩ := x
    obtain ⟨fs, hfs⟩ := h (jn, j) (List.mem_cons_self _ _)
    rw [ghCheck3Loop, hfs]
    simp [ChkOut.consF, ih (fun y hy => h y (List.mem_cons_of_mem _ hy))]

theorem ghCheck4_eval (kvs jobsKvs : List (YKey × Yaml))
    (hjobs : lookupY kvs (.ks "jobs") = some (.map jobsKvs)) :
    ghCheck4 (.map kvs) = ghCheck4Loop jobsKvs := by
  unfold ghCheck4
  rw [yContains_map, hasKeyY_of_lookup hjobs]
  simp [yGetItem, yGetItemK, hjobs, yItems]

theorem ghSecretJob_eval (jn : YKey) (jkvs : List (YKey × Yaml)) (sv : Yaml) (steps : List Yaml)
    (hsteps : lookupY jkvs (.ks "steps") = some sv) (hiter : yIter sv = .ok steps) :
    ghSecretJob jn (.map jkvs) = .ok (secretWarns jn steps) := by
  unfold ghSecretJob
  rw [yContains_map, hasKeyY_of_lookup hsteps]
  simp [yGetItem, yGetItemK, hsteps, hiter]

theorem mem_secretWarns {jn : YKey} {i : Nat} {st : Yaml} {steps : List Yaml} {name : String}
    (hstep : (i, st) ∈ steps.enum) (hname : name ∈ secretRefs (pyStr st)) :
    ghUndefSecretF jn i name ∈ secretWarns jn steps := by
  unfold secretWarns
  exact List.mem_flatMap.mpr ⟨(i, st), hstep, List.mem_map.mpr ⟨name, hname, rfl⟩⟩

theorem ghCheck4Loop_mem {jn : YKey} {j : Yaml} {ws0 : List Finding} {w : Finding} :
    ∀ {l : List (YKey × Yaml)}, (∀ x ∈ l, ∃ ws, ghSecretJob x.1 x.2 = .ok ws) →
    (jn, j) ∈ l → ghSecretJob jn j = .ok ws0 → w ∈ ws0 → w ∈ (ghCheck4Loop l).ws := by
  intro l
  induction l with
  | nil => intro _ h; simp at h
  | cons x rest ih =>
    intro hok hmem hsec hw
    obtain ⟨jn0, j0⟩ := x
    obtain ⟨ws1, hws1⟩ := hok (jn0, j0) (List.mem_cons_self _ _)
    rw [ghCheck4Loop, hws1]
    show w ∈ (ChkOut.consW ws1 (ghCheck4Loop rest)).ws
    rcases List.mem_cons.mp hmem with heq | hmem2
    · obtain ⟨h1, h2⟩ := Prod.mk.injEq jn j jn0 j0 ▸ heq
      subst h1
      subst h2
      rw [hsec] at hws1
      injection hws1 with hws
      subst hws
      exact List.mem_append_left _ hw
    · exact List.mem_append_right _
        (ih (fun y hy => hok y (List.mem_cons_of_mem _ hy)) hmem2 hsec hw)

/-- C8: for a github_actions pipeline (a mapping whose `jobs` value is a
mapping) on which the per-job scans complete without an exception, every
NAME matched by the `$\x7b\x7b secrets.NAME \x7d\x7d` pattern in the
textual representation of a step yields an `undefined_secret` warning
naming that secret, that job, and that step index — unconditionally: the
detector has no knowledge of which secrets actually exist, so every
reference is flagged. -/
theorem C8_thm (kvs jobsKvs jkvs : List (YKey × Yaml)) (sv st : Yaml) (steps : List Yaml)
    (logs : Option String) (jn : YKey) (i : Nat) (name : String)
    (hjobs : lookupY kvs (.ks "jobs") = some (.map jobsKvs))
    (h3ok : ∀ x ∈ jobsKvs, ∃ fs, ghJobMissingSteps x.1 x.2 = .ok fs)
    (h4ok : ∀ x ∈ jobsKvs, ∃ ws, ghSecretJob x.1 x.2 = .ok ws)
    (hmem : (jn, Yaml.map jkvs) ∈ jobsKvs)
    (hsteps : lookupY jkvs (.ks "steps") = some sv)
    (hiter : yIter sv = .ok steps)
    (hstep : (i, st) ∈ steps.enum)
    (hname : name ∈ secretRefs (pyStr st)) :
    ghUndefSecretF jn i name ∈ (detect_github_actions_failures (some (.map kvs)) logs).warnings := by
  have hne : kvs ≠ [] := by
    intro hk
    rw [hk] at hjobs
    simp [lookupY] at hjobs
  have htr : truthy (.map kvs) = true := by simp [truthy, hne]
  rw [show detect_github_actions_failures (some (.map kvs)) logs = detectGithubDoc (.map kvs) logs
    from by simp [detect_github_actions_failures, htr]]
  rw [show (detectGithubDoc (.map kvs) logs).warnings =
      (chain [ghCheck1 (.map kvs), ghCheck2 (.map kvs), ghCheck3 (.map kvs), ghCheck4 (.map kvs),
        ghCheck5 (.map kvs), ghCheck6 (.map kvs), ghLogChecks logs]).ws
    from mkReport_warnings _]
  apply mem_chain_tail_ws (ghCheck1_err_map kvs)
  apply mem_chain_tail_ws (ghCheck2_err_map kvs)
  apply mem_chain_tail_ws (by rw [ghCheck3_eval kvs jobsKvs hjobs]; exact ghCheck3Loop_err _ h3ok)
  apply mem_chain_head_ws
  rw [ghCheck4_eval kvs jobsKvs hjobs]
  exact ghCheck4Loop_mem h4ok hmem (ghSecretJob_eval jn jkvs sv steps hsteps hiter)
    (mem_secretWarns hstep hname)

/-- C8 witness: the warning for `secrets.TOK` in a concrete one-job
pipeline. -/
theorem C8_witness :
    ghUndefSecretF (.ks "b") 0 "TOK"
      ∈ (detect_github_actions_failures (some (.map c8kvs)) none).warnings :=
  C8_thm c8kvs c8jobs [(.ks "steps", .seq [c8step])] (.seq [c8step]) c8step [c8step] none
    (.ks "b") 0 "TOK" rfl
    (by rintro x hx; simp [c8jobs] at hx; subst hx; exact ⟨_, rfl⟩)
    (by rintro x hx; simp [c8jobs] at hx; subst hx; exact ⟨_, rfl⟩)
    (List.Mem.head _) rfl rfl (List.Mem.head _) (List.Mem.head _)

theorem hasKeyY_setKey_self (kvs : List (YKey × Yaml)) (k : YKey) (v : Yaml) :
    hasKeyY (setKey kvs k v) k = true := by
  induction kvs with
  | nil => simp [setKey, hasKeyY]
  | cons kv rest ih =>
    obtain ⟨k0, v0⟩ := kv
    by_cases hk : k0 = k
    · simp [setKey, hasKeyY, hk]
    · simp [setKey, hasKeyY, hk]
      simpa [hasKeyY] using ih

theorem delKey_setKey (kvs : List (YKey × Yaml)) (k : YKey) (v : Yaml) :
    delKey (setKey kvs k v) k = delKey kvs k := by
  induction kvs with
  | nil => simp [setKey, delKey]
  | cons kv rest ih =>
    obtain ⟨k0, v0⟩ := kv
    by_cases hk : k0 = k
    · simp [setKey, delKey, hk]
    · simp [setKey, delKey, hk, ih]

theorem yMemVal_ks_map (s : String) (kvs : List (YKey × Yaml)) :
    yMemVal (keyVal (.ks s)) (.map kvs) = .ok (hasKeyY kvs (.ks s)) :=
  yContains_map s kvs

theorem c7gh_list (top jobs jkvs : List (YKey × Yaml)) (jn x y : String) (r : Report)
    (hjobs : lookupY top (.ks "jobs") = some (.map jobs))
    (hjob : lookupY jobs (.ks jn) = some (.map jkvs))
    (hneeds : lookupY jkvs (.ks "needs") = some (.seq [.str x, .str y]))
    (hjn : jn ≠ "") (hx : x ≠ "") (hyx : y ≠ x)
    (hr : r.failures = [ghInvalidNeedsF (.ks jn) (.str x)]) :
    fix_github_actions_failures (some (.map top)) r =
      some (.map (setKey top (.ks "jobs") (.map (setKey jobs (.ks jn)
        (.map (setKey jkvs (.ks "needs") (.seq [.str y]))))))) := by
  have hne : top ≠ [] := by
    intro hk
    rw [hk] at hjobs
    simp [lookupY] at hjobs
  have htr : truthy (.map top) = true := by simp [truthy, hne]
  have hky : hasKeyY jobs (.ks jn) = true := hasKeyY_of_lookup hjob
  have hkn : hasKeyY jkvs (.ks "needs") = true := hasKeyY_of_lookup hneeds
  have hfil : [Yaml.str x, Yaml.str y].filter (fun n => !ybeq n (.str x)) = [Yaml.str y] := by
    simp [ybeq, hyx]
  simp only [fix_github_actions_failures, htr, if_true, hr]
  simp only [fixLoopGh, fixGhF, ghInvalidNeedsF]
  simp [keyTruthy, hjn, hx, truthy, yGetM, hjobs, yMemVal_ks_map, hky, yContains_map, hkn,
    yGetItem, yGetItemK, hjob, hneeds, hfil, ySet, ySetK, yPutJob, Except.toOption, fixLoopGh]

theorem c7gh_scalar (top jobs jkvs : List (YKey × Yaml)) (jn x : String) (r : Report)
    (hjobs : lookupY top (.ks "jobs") = some (.map jobs))
    (hjob : lookupY jobs (.ks jn) = some (.map jkvs))
    (hneeds : lookupY jkvs (.ks "needs") = some (.str x))
    (hjn : jn ≠ "") (hx : x ≠ "")
    (hr : r.failures = [ghInvalidNeedsF (.ks jn) (.str x)]) :
    fix_github_actions_failures (some (.map top)) r =
      some (.map (setKey top (.ks "jobs") (.map (setKey jobs (.ks jn)
        (.map (delKey jkvs (.ks "needs"))))))) := by
  have hne : top ≠ [] := by
    intro hk
    rw [hk] at hjobs
    simp [lookupY] at hjobs
  have htr : truthy (.map top) = true := by simp [truthy, hne]
  have hky : hasKeyY jobs (.ks jn) = true := hasKeyY_of_lookup hjob
  have hkn : hasKeyY jkvs (.ks "needs") = true := hasKeyY_of_lookup hneeds
  simp only [fix_github_actions_failures, htr, if_true, hr]
  simp only [fixLoopGh, fixGhF, ghInvalidNeedsF]
  simp [keyTruthy, hjn, hx, truthy, yGetM, hjobs, yMemVal_ks_map, hky, yContains_map, hkn,
    yGetItem, yGetItemK, hjob, hneeds, yDel, yDelK, ySet, ySetK, yPutJob, Except.toOption,
    fixLoopGh]

theorem c7gh_single (top jobs jkvs : List (YKey × Yaml)) (jn x : String) (r : Report)
    (hjobs : lookupY top (.ks "jobs") = some (.map jobs))
    (hjob : lookupY jobs (.ks jn) = some (.map jkvs))
    (hneeds : lookupY jkvs (.ks "needs") = some (.seq [.str x]))
    (hjn : jn ≠ "") (hx : x ≠ "")
    (hr : r.failures = [ghInvalidNeedsF (.ks jn) (.str x)]) :
    fix_github_actions_failures (some (.map top)) r =
      some (.map (setKey top (.ks "jobs") (.map (setKey jobs (.ks jn)
        (.map (delKey jkvs (.ks "needs"))))))) := by
  have hne : top ≠ [] := by
    intro hk
    rw [hk] at hjobs
    simp [lookupY] at hjobs
  have htr : truthy (.map top) = true := by simp [truthy, hne]
  have hky : hasKeyY jobs (.ks jn) = true := hasKeyY_of_lookup hjob
  have hkn : hasKeyY jkvs (.ks "needs") = true := hasKeyY_of_lookup hneeds
  have hfil : [Yaml.str x].filter (fun n => !ybeq n (.str x)) = [] := by simp [ybeq]
  simp only [fix_github_actions_failures, htr, if_true, hr]
  simp only [fixLoopGh, fixGhF, ghInvalidNeedsF]
  simp [keyTruthy, hjn, hx, truthy, yGetM, hjobs, yMemVal_ks_map, hky, yContains_map, hkn,
    yGetItem, yGetItemK, hjob, hneeds, hfil, ySet, ySetK, yDel, yDelK, hasKeyY_setKey_self,
    delKey_setKey, yPutJob, Except.toOption, fixLoopGh]

theorem c7az_list (top skvs : List (YKey × Yaml)) (sts : List Yaml) (si : Nat)
    (x y nd : String) (r : Report)
    (hstages : lookupY top (.ks "stages") = some (.seq sts))
    (hlt : si < sts.length)
    (hsi : sts.get? si = some (.map skvs))
    (hdep : lookupY skvs (.ks "dependsOn") = some (.seq [.str x, .str y]))
    (hx : x ≠ "") (hyx : y ≠ x)
    (hr : r.failures = [azInvalidDependsF si nd (.str x)]) :
    fix_azure_devops_failures (some (.map top)) r =
      some (.map (setKey top (.ks "stages") (.seq (sts.set si
        (.map (setKey skvs (.ks "dependsOn") (.seq [.str y]))))))) := by
  have hne : top ≠ [] := by
    intro hk
    rw [hk] at hstages
    simp [lookupY] at hstages
  have htr : truthy (.map top) = true := by simp [truthy, hne]
  have hkd : hasKeyY skvs (.ks "dependsOn") = true := hasKeyY_of_lookup hdep
  have hsi2 : sts[si]? = some (.map skvs) := by simpa [List.get?_eq_getElem?] using hsi
  have hg : sts[si] = Yaml.map skvs := (List.getElem?_eq_some_iff.mp hsi2).2
  have hfil : [Yaml.str x, Yaml.str y].filter (fun n => !ybeq n (.str x)) = [Yaml.str y] := by
    simp [ybeq, hyx]
  simp only [fix_azure_devops_failures, htr, if_true, hr]
  simp only [fixLoopAz, fixAzF, azInvalidDependsF]
  simp [truthy, hx, yGetM, hstages, yLen, hlt, yGetItem, yGetItemK, yIdxGet, hsi2, hg,
    yContains_map, hkd, hdep, hfil, ySet, ySetK, yIdxSet, yPutIdx, Except.toOption, fixLoopAz]

theorem c7az_scalar (top skvs : List (YKey × Yaml)) (sts : List Yaml) (si : Nat)
    (x nd : String) (r : Report)
    (hstages : lookupY top (.ks "stages") = some (.seq sts))
    (hlt : si < sts.length)
    (hsi : sts.get? si = some (.map skvs))
    (hdep : lookupY skvs (.ks "dependsOn") = some (.str x))
    (hx : x ≠ "")
    (hr : r.failures = [azInvalidDependsF si nd (.str x)]) :
    fix_azure_devops_failures (some (.map top)) r =
      some (.map (setKey top (.ks "stages") (.seq (sts.set si
        (.map (delKey skvs (.ks "dependsOn"))))))) := by
  have hne : top ≠ [] := by
    intro hk
    rw [hk] at hstages
    simp [lookupY] at hstages
  have htr : truthy (.map top) = true := by simp [truthy, hne]
  have hkd : hasKeyY skvs (.ks "dependsOn") = true := hasKeyY_of_lookup hdep
  have hsi2 : sts[si]? = some (.map skvs) := by simpa [List.get?_eq_getElem?] using hsi
  have hg : sts[si] = Yaml.map skvs := (List.getElem?_eq_some_iff.mp hsi2).2
  simp only [fix_azure_devops_failures, htr, if_true, hr]
  simp only [fixLoopAz, fixAzF, azInvalidDependsF]
  simp [truthy, hx, yGetM, hstages, yLen, hlt, yGetItem, yGetItemK, yIdxGet, hsi2, hg,
    yContains_map, hkd, hdep, yDel, yDelK, ySet, ySetK, yIdxSet, yPutIdx, Except.toOption,
    fixLoopAz]

theorem c7az_single (top skvs : List (YKey × Yaml)) (sts : List Yaml) (si : Nat)
    (x nd : String) (r : Report)
    (hstages : lookupY top (.ks "stages") = some (.seq sts))
    (hlt : si < sts.length)
    (hsi : sts.get? si = some (.map skvs))
    (hdep : lookupY skvs (.ks "dependsOn") = some (.seq [.str x]))
    (hx : x ≠ "")
    (hr : r.failures = [azInvalidDependsF si nd (.str x)]) :
    fix_azure_devops_failures (some (.map top)) r =
      some (.map (setKey top (.ks "stages") (.seq (sts.set si
        (.map (delKey skvs (.ks "dependsOn"))))))) := by
  have hne : top ≠ [] := by
    intro hk
    rw [hk] at hstages
    simp [lookupY] at hstages
  have htr : truthy (.map top) = true := by simp [truthy, hne]
  have hkd : hasKeyY skvs (.ks "dependsOn") = true := hasKeyY_of_lookup hdep
  have hsi2 : sts[si]? = some (.map skvs) := by simpa [List.get?_eq_getElem?] using hsi
  have hg : sts[si] = Yaml.map skvs := (List.getElem?_eq_some_iff.mp hsi2).2
  have hfil : [Yaml.str x].filter (fun n => !ybeq n (.str x)) = [] := by simp [ybeq]
  simp only [fix_azure_devops_failures, htr, if_true, hr]
  simp only [fixLoopAz, fixAzF, azInvalidDependsF]
  simp [truthy, hx, yGetM, hstages, yLen, hlt, yGetItem, yGetItemK, yIdxGet, hsi2, hg,
    yContains_map, hkd, hdep, hfil, ySet, ySetK, yDel, yDelK, hasKeyY_setKey_self,
    delKey_setKey, yIdxSet, yPutIdx, Except.toOption, fixLoopAz]

/-- C7: non-destructive dependency removal.  For a github_actions job whose
`needs` list is `[x, y]` with `x` the single invalid reference, fix applied
with a report holding only that `invalid_needs` finding rewrites exactly
that job's `needs` to `[y]` — the conclusion is a single key-path update, so
every other field of the job and every other job are unchanged.  If removal
empties the list, or `needs` was the scalar `x`, the `needs` key is deleted
and the job itself is kept.  The analogous three statements hold for an
Azure DevOps stage's `dependsOn` (a single index-path update). -/
theorem C7_thm :
    (∀ (top jobs jkvs : List (YKey × Yaml)) (jn x y : String) (r : Report),
      lookupY top (.ks "jobs") = some (.map jobs) →
      lookupY jobs (.ks jn) = some (.map jkvs) →
      lookupY jkvs (.ks "needs") = some (.seq [.str x, .str y]) →
      jn ≠ "" → x ≠ "" → y ≠ x →
      r.failures = [ghInvalidNeedsF (.ks jn) (.str x)] →
      fix_github_actions_failures (some (.map top)) r =
        some (.map (setKey top (.ks "jobs") (.map (setKey jobs (.ks jn)
          (.map (setKey jkvs (.ks "needs") (.seq [.str y]))))))))
    ∧ (∀ (top jobs jkvs : List (YKey × Yaml)) (jn x : String) (r : Report),
      lookupY top (.ks "jobs") = some (.map jobs) →
      lookupY jobs (.ks jn) = some (.map jkvs) →
      lookupY jkvs (.ks "needs") = some (.str x) →
      jn ≠ "" → x ≠ "" →
      r.failures = [ghInvalidNeedsF (.ks jn) (.str x)] →
      fix_github_actions_failures (some (.map top)) r =
        some (.map (setKey top (.ks "jobs") (.map (setKey jobs (.ks jn)
          (.map (delKey jkvs (.ks "needs"))))))))
    ∧ (∀ (top jobs jkvs : List (YKey × Yaml)) (jn x : String) (r : Report),
      lookupY top (.ks "jobs") = some (.map jobs) →
      lookupY jobs (.ks jn) = some (.map jkvs) →
      lookupY jkvs (.ks "needs") = some (.seq [.str x]) →
      jn ≠ "" → x ≠ "" →
      r.failures = [ghInvalidNeedsF (.ks jn) (.str x)] →
      fix_github_actions_failures (some (.map top)) r =
        some (.map (setKey top (.ks "jobs") (.map (setKey jobs (.ks jn)
          (.map (delKey jkvs (.ks "needs"))))))))
    ∧ (∀ (top skvs : List (YKey × Yaml)) (sts : List Yaml) (si : Nat) (x y nd : String) (r : Report),
      lookupY top (.ks "stages") = some (.seq sts) →
      si < sts.length →
      sts.get? si = some (.map skvs) →
      lookupY skvs (.ks "dependsOn") = some (.seq [.str x, .str y]) →
      x ≠ "" → y ≠ x →
      r.failures = [azInvalidDependsF si nd (.str x)] →
      fix_azure_devops_failures (some (.map top)) r =
        some (.map (setKey top (.ks "stages") (.seq (sts.set si
          (.map (setKey skvs (.ks "dependsOn") (.seq [.str y]))))))))
    ∧ (∀ (top skvs : List (YKey × Yaml)) (sts : List Yaml) (si : Nat) (x nd : String) (r : Report),
      lookupY top (.ks "stages") = some (.seq sts) →
      si < sts.length →
      sts.get? si = some (.map skvs) →
      lookupY skvs (.ks "dependsOn") = some (.str x) →
      x ≠ "" →
      r.failures = [azInvalidDependsF si nd (.str x)] →
      fix_azure_devops_failures (some (.map top)) r =
        some (.map (setKey top (.ks "stages") (.seq (sts.set si
          (.map (delKey skvs (.ks "dependsOn"))))))))
    ∧ (∀ (top skvs : List (YKey × Yaml)) (sts : List Yaml) (si : Nat) (x nd : String) (r : Report),
      lookupY top (.ks "stages") = some (.seq sts) →
      si < sts.length →
      sts.get? si = some (.map skvs) →
      lookupY skvs (.ks "dependsOn") = some (.seq [.str x]) →
      x ≠ "" →
      r.failures = [azInvalidDependsF si nd (.str x)] →
      fix_azure_devops_failures (some (.map top)) r =
        some (.map (setKey top (.ks "stages") (.seq (sts.set si
          (.map (delKey skvs (.ks "dependsOn")))))))) :=
  ⟨c7gh_list, c7gh_scalar, c7gh_single, c7az_list, c7az_scalar, c7az_single⟩

/-- C7 witness: the two-element list cases at concrete github_actions and
azure_devops documents. -/
theorem C7_witness :
    fix_github_actions_failures (some (.map c7top))
        ⟨"success", [ghInvalidNeedsF (.ks "b") (.str "x")], [], none⟩ =
      some (.map (setKey c7top (.ks "jobs") (.map (setKey c7jobs (.ks "b")
        (.map (setKey c7jk (.ks "needs") (.seq [.str "y"])))))))
    ∧ fix_azure_devops_failures (some (.map c7atop))
        ⟨"success", [azInvalidDependsF 0 "s0" (.str "x")], [], none⟩ =
      some (.map (setKey c7atop (.ks "stages") (.seq ([Yaml.map c7sk].set 0
        (.map (setKey c7sk (.ks "dependsOn") (.seq [.str "y"]))))))) :=
  ⟨C7_thm.1 c7top c7jobs c7jk "b" "x" "y" _ rfl rfl rfl (by decide) (by decide) (by decide) rfl,
    C7_thm.2.2.2.1 c7atop c7sk [.map c7sk] 0 "x" "y" "s0" _ rfl (by decide) rfl rfl
      (by decide) (by decide) rfl⟩

/-- C1: counterexample.  On the claim's exact input text — whose PyYAML load
is `c1doc`, with the unquoted key `on` resolved to the boolean `true` by the
YAML 1.1 resolver — detect returns two failures, `missing_triggers` followed
by `missing_runner`, so the failures list does not contain exactly one
finding of kind `missing_runner`. -/
theorem C1_counterexample :
    (detect_github_actions_failures (some c1doc) none).failures.length = 2
    ∧ (detect_github_actions_failures (some c1doc) none).failures.map Finding.ftype
        = ["missing_triggers", "missing_runner"] :=
  ⟨rfl, rfl⟩

/-- C1 (amended): on the exact input text, detect returns exactly the
failures `missing_triggers` (PyYAML loads the unquoted key `on` as the
boolean `true`, so the `"on" in pipeline` check fails) and `missing_runner`
for job `build`, with no warnings; and fix applied to that text with that
report returns a document in which job `build` has `runs-on` equal to
`"ubuntu-latest"`. -/
theorem C1_amended_thm :
    detect_github_actions_failures (some c1doc) none = c1report
    ∧ fix_github_actions_failures (some c1doc) c1report = some c1fixed
    ∧ (fix_github_actions_failures (some c1doc) c1report).bind
        (fun d => getPath d ["jobs", "build", "runs-on"]) = some (.str "ubuntu-latest") :=
  ⟨rfl, rfl, rfl⟩

/-- C2: code bug.  For a Jenkinsfile whose stage `Build` lacks a `steps`
block, detect reports `missing_steps`; but fix returns the text unchanged —
in the patcher's raw pattern the characters `\x7b0\x7d` after the quote
class are a regex quantifier (exactly zero repetitions), not the intended
placeholder for the stage name, so the substitution never matches — and
re-running detect on the "patched" text still reports the same
`missing_steps` finding, contradicting the documented patch-then-detect
convergence. -/
theorem C2_code_bug_thm :
    detect_jenkins_failures jk2text none = jk2report
    ∧ fix_jenkins_failures jk2text jk2report = some jk2text
    ∧ (detect_jenkins_failures jk2text none).failures.map Finding.ftype = ["missing_steps"] :=
  ⟨rfl, rfl, rfl⟩

/-- C3: counterexample.  gitlab_ci detect on a document that parses to the
non-empty top-level sequence `["x"]` appends the `missing_stages` warning
and then raises in `.items()`: the returned report has `status = "error"`
together with a non-empty warnings list, so partial findings are returned
with an error status. -/
theorem C3_counterexample :
    (detect_gitlab_ci_failures (some (.seq [.str "x"])) none).status = "error"
    ∧ (detect_gitlab_ci_failures (some (.seq [.str "x"])) none).warnings = [glMissingStagesF] :=
  ⟨rfl, rfl⟩

/-- C4: counterexample.  A document parsing to the non-empty top-level
sequence `["a"]` is not a mapping, yet github_actions detect returns
`status = "success"` (with `missing_jobs` and `missing_triggers` findings),
not an error report. -/
theorem C4_counterexample :
    isMapY (.seq [.str "a"]) = false
    ∧ truthy (.seq [.str "a"]) = true
    ∧ (detect_github_actions_failures (some (.seq [.str "a"])) none).status = "success"
    ∧ (detect_github_actions_failures (some (.seq [.str "a"])) none).failures.map Finding.ftype
        = ["missing_jobs", "missing_triggers"] :=
  ⟨rfl, rfl, rfl, rfl⟩
